import Mathlib

/-!
Gertboard ADC/DAC register-access layer.

A shallow embedding of `gpio_access.c`, `gpio_access.h` and `spi_access.c`:
the two memory-mapped register blocks (GPIO and SPI0), their client
counters, and the routines that read and write the registers.

Modelling conventions.

* `unsigned int` values are natural numbers reduced modulo `2 ^ 32`; a C
  `int` argument is an `Int` whose 32-bit two's-complement pattern is taken
  with `toU32` before any bit operation; `unsigned char` is reduction
  modulo `2 ^ 8`.
* A pointer is an `Option Nat`: `none` is `NULL`, `some a` a mapped address.
* The GPIO block is word-addressed memory (`gpio_mem`): a read returns the
  word last stored.  The SPI0 block keeps the words last written
  (`spi0_mem`), while reads of its control/status and FIFO registers are
  answered by the device, given as two streams of future read values.
* Every register access and every `open`/`mmap`/`close`/`munmap` call is
  appended to `trace`, oldest first.
* The results of system calls are given by `OS`, indexed by the length of
  the trace at the moment of the call.
* A routine ends in `Res.ret` (normal return), `Res.exit` (`exit(1)`),
  `Res.fault` (dereference of a `NULL` block pointer) or `Res.hang` (a
  polling loop that has not finished within the given number of rounds).
-/

namespace GbAdc

/-! ## Constants of `gpio_access.h` / `gpio_access.c` -/

/-- Word size of the registers: `unsigned int` is 32 bits wide. -/
def WORD : Nat := 2 ^ 32

/-- The SoC I/O address `BCM_IO_MAP` of the RPi 2 build (`#define RPi2`). -/
def BCM_IO_MAP : Nat := 0x3f000000

/-- GPIO registers base address. -/
def GPIO_BASE : Nat := BCM_IO_MAP + 0x200000

/-- Total GPIO register block size mapped, in bytes. -/
def GPIO_LEN : Nat := 0xb4

/-- Macro `GPIO_FSEL(x)`, which is `*(gpio+x)`: word offset of function-select register `x`. -/
def GPIO_FSEL (x : Nat) : Nat := x

/-- Macro `GPIO_SET(x)`, which is `*(gpio+7+x)`. -/
def GPIO_SET (x : Nat) : Nat := 7 + x

/-- Macro `GPIO_CLR(x)`, which is `*(gpio+10+x)`. -/
def GPIO_CLR (x : Nat) : Nat := 10 + x

/-- Macro `GPIO_LEV(x)`, which is `*(gpio+13+x)`. -/
def GPIO_LEV (x : Nat) : Nat := 13 + x

/-- Macro `GPIO_PUD(x)`, which is `*(gpio+37+x)`. -/
def GPIO_PUD (x : Nat) : Nat := 37 + x

/-- Macro `GPIO_PUDCLK(x)`, which is `*(gpio+38+x)`. -/
def GPIO_PUDCLK (x : Nat) : Nat := 38 + x

/-- GPIO pin selected function values (`gpio_sel_mode_t`). -/
inductive gpio_sel_mode_t where
  | GPIO_INPUT
  | GPIO_OUTPUT
  | GPIO_ALT0
  | GPIO_ALT1
  | GPIO_ALT2
  | GPIO_ALT3
  | GPIO_ALT4
  | GPIO_ALT5
  deriving DecidableEq, Repr

/-- Numeric value of each enumerator of `gpio_sel_mode_t`. -/
def gpio_sel_mode_t.val : gpio_sel_mode_t → Nat
  | .GPIO_INPUT => 0x0
  | .GPIO_OUTPUT => 0x1
  | .GPIO_ALT0 => 0x4
  | .GPIO_ALT1 => 0x5
  | .GPIO_ALT2 => 0x6
  | .GPIO_ALT3 => 0x7
  | .GPIO_ALT4 => 0x3
  | .GPIO_ALT5 => 0x2

/-- GPIO read/write control values (`gpio_pin_val_t`). -/
inductive gpio_pin_val_t where
  | GPIO_LOW
  | GPIO_HIGH
  deriving DecidableEq, Repr

/-- GPIO pin internal pull up/down control settings (`gpio_pud_val_t`). -/
inductive gpio_pud_val_t where
  | GPIO_PUD_OFF
  | GPIO_PUD_DN
  | GPIO_PUD_UP
  deriving DecidableEq, Repr

/-- Numeric value of each enumerator of `gpio_pud_val_t`. -/
def gpio_pud_val_t.val : gpio_pud_val_t → Nat
  | .GPIO_PUD_OFF => 0
  | .GPIO_PUD_DN => 1
  | .GPIO_PUD_UP => 2

/-! ## Constants of `spi_access.c` -/

/-- Word offset of `SPI0_CNTLSTAT` (`*(spi0 + 0)`). -/
def SPI0_CNTLSTAT : Nat := 0

/-- Word offset of `SPI0_FIFO` (`*(spi0 + 1)`). -/
def SPI0_FIFO : Nat := 1

/-- Word offset of `SPI0_CLKSPEED` (`*(spi0 + 2)`). -/
def SPI0_CLKSPEED : Nat := 2

/-- Receive FIFO has data. -/
def SPI0_CS_RXFIFODATA : Nat := 0x00020000

/-- SPI transfer done. -/
def SPI0_CS_DONE : Nat := 0x00010000

/-- Activate. -/
def SPI0_CS_ACTIVATE : Nat := 0x00000080

/-- Clear TX/RX FIFO. -/
def SPI0_CS_CLRFIFOS : Nat := 0x00000030

/-- Use chip select 0. -/
def SPI0_CS_CHIPSEL0 : Nat := 0x00000000

/-- Use chip select 1. -/
def SPI0_CS_CHIPSEL1 : Nat := 0x00000001

/-- Macro `SPI0_CS_CLRALL`, which is `(SPI0_CS_CLRFIFOS|SPI0_CS_DONE)`. -/
def SPI0_CS_CLRALL : Nat := SPI0_CS_CLRFIFOS ||| SPI0_CS_DONE

/-- Speed divisor. -/
def SPI_SPEED : Nat := 256

/-- DAC MCP4802 uses RPi SPI0 CS_0 (`#define GB_DAC_SPI0_CS SPI0_CS_CHIPSEL0`). -/
def GB_DAC_SPI0_CS : Nat := SPI0_CS_CHIPSEL0

/-- ADC MCP3002 uses RPi SPI0 CS_1 (`#define GB_ADC_SPI0_CS SPI0_CS_CHIPSEL1`). -/
def GB_ADC_SPI0_CS : Nat := SPI0_CS_CHIPSEL1

/-- SPI0 base address. -/
def SPI0_BASE : Nat := BCM_IO_MAP + 0x204000

/-- Size in bytes of the six SPI0 registers mapped. -/
def SPI0_LEN : Nat := 0x18

/-! ## Machine arithmetic -/

/-- The 32-bit two's-complement bit pattern of a C `int`. -/
def toU32 (x : Int) : Nat := (x % 4294967296).toNat

/-- Bitwise complement of a 32-bit word (`~x`). -/
def not32 (x : Nat) : Nat := (WORD - 1) ^^^ (x % WORD)

/-- Left shift of a 32-bit word, keeping the low 32 bits. -/
def shl32 (x n : Nat) : Nat := (x <<< n) % WORD

/-- Conversion to `unsigned char`. -/
def toU8 (x : Nat) : Nat := x % 256

/-! ## The machine state -/

/-- The two register blocks. -/
inductive Blk where
  | gpioBlk
  | spi0Blk
  deriving DecidableEq, Repr

/-- Observable events, in program order. -/
inductive Ev where
  | rd (b : Blk) (off val : Nat)
  | wr (b : Blk) (off val : Nat)
  | sys_open
  | sys_mmap (b : Blk)
  | sys_close
  | sys_munmap (b : Blk)
  deriving DecidableEq, Repr

/-- Results of the system calls; the argument is the length of the trace
when the call is made. -/
structure OS where
  /-- Whether `open("/dev/mem")` yields a descriptor. -/
  open_ok : Nat → Bool
  /-- Address returned by `mmap`, `none` for `MAP_FAILED`. -/
  mmap_res : Nat → Option Nat
  /-- Whether `munmap` succeeds. -/
  munmap_ok : Nat → Bool

/-- Process-wide state of the two modules together with the devices. -/
structure World where
  /-- Mapped GPIO I/O block (`volatile unsigned int *gpio`). -/
  gpio : Option Nat
  /-- Counter `gpio_clients`. -/
  gpio_clients : Nat
  /-- Mapped SPI0 I/O block (`volatile unsigned int *spi0`). -/
  spi0 : Option Nat
  /-- Counter `spi0_clients`. -/
  spi0_clients : Nat
  /-- Content of the GPIO register block, by word offset. -/
  gpio_mem : Nat → Nat
  /-- Words last written to the SPI0 register block, by word offset. -/
  spi0_mem : Nat → Nat
  /-- Values the device returns on the coming reads of `SPI0_CNTLSTAT`. -/
  spi0_status : Nat → Nat
  /-- Values the device returns on the coming reads of `SPI0_FIFO`. -/
  spi0_fifo : Nat → Nat
  /-- System call results. -/
  os : OS
  /-- Events so far, oldest first. -/
  trace : List Ev

/-- How a routine ends. -/
inductive Res (α : Type) where
  | ret (a : α) (w : World)
  | exit (w : World)
  | fault (w : World)
  | hang

/-- A routine: a function of the state. -/
abbrev Prog (α : Type) : Type := World → Res α

/-- Sequencing: continue only after a normal return. -/
def Prog.bind {α β : Type} (m : Prog α) (f : α → Prog β) : Prog β := fun w =>
  match m w with
  | .ret a w1 => f a w1
  | .exit w1 => .exit w1
  | .fault w1 => .fault w1
  | .hang => .hang

/-- Return without effect. -/
def Prog.pure {α : Type} (a : α) : Prog α := fun w => .ret a w

instance : Monad Prog where
  pure := Prog.pure
  bind := Prog.bind

/-- Append an event to the trace. -/
def World.log (w : World) (e : Ev) : World := { w with trace := w.trace ++ [e] }

/-- Read of `*(gpio + off)`. -/
def gpio_rd (off : Nat) : Prog Nat := fun w =>
  match w.gpio with
  | none => .fault w
  | some _ => .ret (w.gpio_mem off) (w.log (.rd .gpioBlk off (w.gpio_mem off)))

/-- Write of `*(gpio + off) = v`. -/
def gpio_wr (off v : Nat) : Prog Unit := fun w =>
  match w.gpio with
  | none => .fault w
  | some _ =>
    .ret () { w with
      gpio_mem := fun i => if i = off then v % WORD else w.gpio_mem i
      trace := w.trace ++ [.wr .gpioBlk off (v % WORD)] }

/-- Read of `*(spi0 + off)`: the control/status and FIFO registers are
answered by the device, the other registers return the word last written. -/
def spi0_rd (off : Nat) : Prog Nat := fun w =>
  match w.spi0 with
  | none => .fault w
  | some _ =>
    if off = SPI0_CNTLSTAT then
      .ret (w.spi0_status 0 % WORD)
        { w with
          spi0_status := fun n => w.spi0_status (n + 1)
          trace := w.trace ++ [.rd .spi0Blk off (w.spi0_status 0 % WORD)] }
    else if off = SPI0_FIFO then
      .ret (w.spi0_fifo 0 % WORD)
        { w with
          spi0_fifo := fun n => w.spi0_fifo (n + 1)
          trace := w.trace ++ [.rd .spi0Blk off (w.spi0_fifo 0 % WORD)] }
    else
      .ret (w.spi0_mem off) (w.log (.rd .spi0Blk off (w.spi0_mem off)))

/-- Write of `*(spi0 + off) = v`. -/
def spi0_wr (off v : Nat) : Prog Unit := fun w =>
  match w.spi0 with
  | none => .fault w
  | some _ =>
    .ret () { w with
      spi0_mem := fun i => if i = off then v % WORD else w.spi0_mem i
      trace := w.trace ++ [.wr .spi0Blk off (v % WORD)] }

/-! ## `gpio_access.c` -/

/-- Delay of 150 ticks: the loop body is an empty `asm volatile`. -/
def short_wait : Prog Unit := fun w => .ret () ((fun x => x)^[150] w)

/-- Basic GPIO initialization (`gpio_access_init`). -/
def gpio_access_init : Prog Unit := fun w =>
  if w.gpio_clients > 0 then
    .exit w
  else
    match w.gpio with
    | none =>
      let w1 := w.log .sys_open
      if w.os.open_ok w.trace.length = false then
        .exit w1
      else
        let w2 := w1.log (.sys_mmap .gpioBlk)
        let w3 := w2.log .sys_close
        match w.os.mmap_res w1.trace.length with
        | none => .exit w3
        | some addr =>
          .ret () { w3 with gpio := some addr, gpio_clients := (w3.gpio_clients + 1) % WORD }
    | some _ => .ret () { w with gpio_clients := (w.gpio_clients + 1) % WORD }

/-- Basic GPIO access clean up (`gpio_access_cleanup`). -/
def gpio_access_cleanup : Prog Unit := fun w =>
  match w.gpio with
  | none => .ret () w
  | some _ =>
    let w1 := { w with gpio_clients := (w.gpio_clients + (WORD - 1)) % WORD }
    if w1.gpio_clients = 0 then
      let w2 := w1.log (.sys_munmap .gpioBlk)
      if w.os.munmap_ok w1.trace.length = false then
        .exit w2
      else
        .ret () { w2 with gpio := none }
    else
      .ret () w1

/-- GPIO pin function selection (`gpio_function_sel`). -/
def gpio_function_sel (pin : Nat) (mode : gpio_sel_mode_t) : Prog Unit := fun w =>
  if pin > 53 then
    .ret () w
  else if w.gpio.isNone then
    .ret () w
  else
    let idx := pin / 10
    let pos := (pin % 10) * 3
    (do
      let r ← gpio_rd (GPIO_FSEL idx)
      gpio_wr (GPIO_FSEL idx) (r &&& not32 (7 <<< pos))
      if mode ≠ .GPIO_INPUT then
        let r2 ← gpio_rd (GPIO_FSEL idx)
        gpio_wr (GPIO_FSEL idx) (r2 ||| (mode.val <<< pos))
      else
        pure ()) w

/-- GPIO pin write (`gpio_pin_write`). -/
def gpio_pin_write (pin : Nat) (val : gpio_pin_val_t) : Prog Unit := fun w =>
  if pin > 53 then
    .ret () w
  else if w.gpio.isNone then
    .ret () w
  else
    let idx := pin / 32
    let pos := pin % 32
    if val = .GPIO_HIGH then
      gpio_wr (GPIO_SET idx) (shl32 1 pos) w
    else
      gpio_wr (GPIO_CLR idx) (shl32 1 pos) w

/-- GPIO pin read (`gpio_pin_read`).  The argument `val` is the output
location: `none` for a `NULL` pointer, `some c` for a location holding `c`;
the value returned is the content of the location afterwards. -/
def gpio_pin_read (pin : Nat) (val : Option gpio_pin_val_t) : Prog (Option gpio_pin_val_t) :=
  fun w =>
  if pin > 53 then
    .ret val w
  else if val.isNone then
    .ret val w
  else if w.gpio.isNone then
    .ret val w
  else
    let idx := pin / 32
    let pos := pin % 32
    (do
      let r ← gpio_rd (GPIO_LEV idx)
      pure (some (if r &&& shl32 1 pos ≠ 0 then gpio_pin_val_t.GPIO_HIGH
                  else gpio_pin_val_t.GPIO_LOW))) w

/-- GPIO pin internal pull up/down control (`gpio_pin_pullup`). -/
def gpio_pin_pullup (pin : Nat) (val : gpio_pud_val_t) : Prog Unit := fun w =>
  if pin > 53 then
    .ret () w
  else if w.gpio.isNone then
    .ret () w
  else
    let idx := pin / 32
    let pos := pin % 32
    (do
      gpio_wr (GPIO_PUD idx) val.val
      short_wait
      gpio_wr (GPIO_PUDCLK idx) (shl32 1 pos)
      short_wait
      gpio_wr (GPIO_PUD idx) 0
      gpio_wr (GPIO_PUDCLK idx) 0) w

/-! ## `spi_access.c` -/

/-- Set the SPI bus speed and clear FIFO and status bits (`setup_spi0`). -/
def setup_spi0 (speed_div : Nat) : Prog Unit := do
  spi0_wr SPI0_CLKSPEED speed_div
  spi0_wr SPI0_CNTLSTAT SPI0_CS_CLRALL

/-- Basic SPI initialization (`spi_access_init`). -/
def spi_access_init : Prog Unit := fun w =>
  if w.spi0_clients > 0 then
    .exit w
  else
    (do
      gpio_access_init
      fun w0 =>
        match w0.spi0 with
        | none =>
          let w1 := w0.log .sys_open
          if w0.os.open_ok w0.trace.length = false then
            .exit w1
          else
            let w2 := w1.log (.sys_mmap .spi0Blk)
            let w3 := w2.log .sys_close
            match w0.os.mmap_res w1.trace.length with
            | none => .exit w3
            | some addr =>
              (do
                gpio_function_sel 7 .GPIO_ALT0
                gpio_function_sel 8 .GPIO_ALT0
                gpio_function_sel 9 .GPIO_ALT0
                gpio_function_sel 10 .GPIO_ALT0
                gpio_function_sel 11 .GPIO_ALT0
                setup_spi0 SPI_SPEED
                fun w4 => .ret () { w4 with spi0_clients := (w4.spi0_clients + 1) % WORD })
                { w3 with spi0 := some addr }
        | some _ => .ret () { w0 with spi0_clients := (w0.spi0_clients + 1) % WORD }) w

/-- Basic SPI access clean up (`spi_access_cleanup`). -/
def spi_access_cleanup : Prog Unit := do
  (fun w =>
    match w.spi0 with
    | none => .ret () w
    | some _ =>
      let w1 := { w with spi0_clients := (w.spi0_clients + (WORD - 1)) % WORD }
      if w1.spi0_clients = 0 then
        let w2 := w1.log (.sys_munmap .spi0Blk)
        if w.os.munmap_ok w1.trace.length = false then
          .exit w2
        else
          .ret () { w2 with spi0 := none }
      else
        .ret () w1)
  gpio_access_cleanup

/-- The loop `do { status = SPI0_CNTLSTAT; } while ((status & flag) == 0);`
run for at most `fuel` rounds. -/
def poll (flag : Nat) : Nat → Prog Unit
  | 0 => fun _ => .hang
  | fuel + 1 => do
    let status ← spi0_rd SPI0_CNTLSTAT
    if status &&& flag = 0 then poll flag fuel else pure ()

/-- Write one 8-bit value to DAC channel 0 or 1 (`write_dac`); every polling
loop is given `fuel` rounds. -/
def write_dac (fuel : Nat) (chan val : Int) : Prog Unit := do
  let val := toU32 val &&& 0xff
  let v1 := toU8 (0x30 ||| shl32 (toU32 chan) 7 ||| (val >>> 4))
  let v2 := toU8 (shl32 val 4 &&& 0xf0)
  short_wait
  spi0_wr SPI0_CNTLSTAT (GB_ADC_SPI0_CS ||| SPI0_CS_ACTIVATE)
  spi0_wr SPI0_FIFO v1
  poll SPI0_CS_RXFIFODATA fuel
  let _dummy ← spi0_rd SPI0_FIFO
  spi0_wr SPI0_FIFO v2
  poll SPI0_CS_RXFIFODATA fuel
  let _dummy ← spi0_rd SPI0_FIFO
  poll SPI0_CS_DONE fuel
  spi0_wr SPI0_CNTLSTAT SPI0_CS_DONE

/-- Read one 10-bit value from ADC channel 0 or 1 (`read_adc`); every polling
loop is given `fuel` rounds. -/
def read_adc (fuel : Nat) (chan : Int) : Prog Nat := do
  let v1 := toU8 (0x68 ||| shl32 (toU32 chan) 4)
  short_wait
  spi0_wr SPI0_CNTLSTAT (GB_DAC_SPI0_CS ||| SPI0_CS_ACTIVATE)
  spi0_wr SPI0_FIFO v1
  poll SPI0_CS_RXFIFODATA fuel
  let r1 ← spi0_rd SPI0_FIFO
  let v1 := toU8 r1
  spi0_wr SPI0_FIFO 0
  poll SPI0_CS_RXFIFODATA fuel
  let r2 ← spi0_rd SPI0_FIFO
  let v2 := toU8 r2
  poll SPI0_CS_DONE fuel
  spi0_wr SPI0_CNTLSTAT SPI0_CS_DONE
  pure ((shl32 v1 8 ||| v2) &&& 0x3ff)

/-! ## Observations on results and traces -/

/-- The value returned, when the routine returns. -/
def Res.val? {α : Type} : Res α → Option α
  | .ret a _ => some a
  | _ => none

/-- The state in which the routine returned. -/
def Res.world? {α : Type} : Res α → Option World
  | .ret _ w => some w
  | _ => none

/-- The state in which the routine called `exit(1)`. -/
def Res.exitWorld? {α : Type} : Res α → Option World
  | .exit w => some w
  | _ => none

/-- The state the routine left behind, whether it returned, called
`exit(1)` or faulted. -/
def Res.last? {α : Type} : Res α → Option World
  | .ret _ w => some w
  | .exit w => some w
  | .fault w => some w
  | .hang => none

/-- The values written to register `off` of block `b`, in order. -/
def writesTo (b : Blk) (off : Nat) : List Ev → List Nat
  | [] => []
  | .wr b1 off1 v :: t =>
    if b1 = b ∧ off1 = off then v :: writesTo b off t else writesTo b off t
  | _ :: t => writesTo b off t

/-- The values read from register `off` of block `b`, in order. -/
def readsFrom (b : Blk) (off : Nat) : List Ev → List Nat
  | [] => []
  | .rd b1 off1 v :: t =>
    if b1 = b ∧ off1 = off then v :: readsFrom b off t else readsFrom b off t
  | _ :: t => readsFrom b off t

/-- The `mmap` and `munmap` calls of a trace, in order. -/
def mapEvents : List Ev → List Ev
  | [] => []
  | .sys_mmap b :: t => .sys_mmap b :: mapEvents t
  | .sys_munmap b :: t => .sys_munmap b :: mapEvents t
  | _ :: t => mapEvents t

/-- The 3-bit function-select field at bit position `pos` of a register word. -/
def fselField (reg pos : Nat) : Nat := (reg >>> pos) &&& 7

/-- A device on which every wait ends: from any point on, the receive-data
flag and the done flag are each seen set again. -/
def Responsive (s : Nat → Nat) : Prop :=
  (∀ n, ∃ m, n ≤ m ∧ (s m % WORD) &&& SPI0_CS_RXFIFODATA ≠ 0) ∧
  (∀ n, ∃ m, n ≤ m ∧ (s m % WORD) &&& SPI0_CS_DONE ≠ 0)

/-- A system on which `open`, `mmap` and `munmap` always succeed. -/
def OS.succeeds (os : OS) : Prop :=
  ∀ n, os.open_ok n = true ∧ os.mmap_res n ≠ none ∧ os.munmap_ok n = true

/-- Run `p` `n` times in a row. -/
def repeatProg (p : Prog Unit) : Nat → Prog Unit
  | 0 => pure ()
  | n + 1 => do
    p
    repeatProg p n

/-- The run of `N` calls of `gpio_access_init` followed by `N` calls of
`gpio_access_cleanup`. -/
def acquire_release (N : Nat) : Prog Unit := do
  repeatProg gpio_access_init N
  repeatProg gpio_access_cleanup N

/-- The two life-cycle calls of the GPIO module. -/
inductive GpioCall where
  | init
  | cleanup
  deriving DecidableEq, Repr

/-- The routine behind a life-cycle call. -/
def GpioCall.run : GpioCall → Prog Unit
  | .init => gpio_access_init
  | .cleanup => gpio_access_cleanup

/-- Run a sequence of life-cycle calls, stopping at the first that does not
return. -/
def runCalls : List GpioCall → Prog Unit
  | [] => pure ()
  | c :: cs => do
    c.run
    runCalls cs

/-- A system on which every call succeeds and `mmap` returns one fixed address. -/
def okOS : OS :=
  { open_ok := fun _ => true, mmap_res := fun _ => some 0x76f00000, munmap_ok := fun _ => true }

/-- The state at program start: nothing mapped, no clients, all registers
zero, a device whose status always shows data and done and whose FIFO
returns `0x02`, then `0x34`, then zeros. -/
def world0 : World :=
  { gpio := none, gpio_clients := 0, spi0 := none, spi0_clients := 0
    gpio_mem := fun _ => 0, spi0_mem := fun _ => 0
    spi0_status := fun _ => 0x00030000
    spi0_fifo := fun n => if n = 0 then 0x02 else if n = 1 then 0x34 else 0
    os := okOS, trace := [] }

/-- The state `world0` with both blocks mapped and one client each. -/
def worldMapped : World :=
  { world0 with gpio := some 0x76f00000, gpio_clients := 1,
                spi0 := some 0x76f01000, spi0_clients := 1 }


/-- The awaited flag is clear in the first `k` status values of the stream
`s` and set in the next one. -/
def FirstSet (flag : Nat) (s : Nat → Nat) (k : Nat) : Prop :=
  (∀ i, i < k → (s i % WORD) &&& flag = 0) ∧ (s k % WORD) &&& flag ≠ 0

/-- The events of `k + 1` successive reads of the control/status register
from the stream `s`. -/
def statusReads (s : Nat → Nat) (k : Nat) : List Ev :=
  (List.range (k + 1)).map (fun i => Ev.rd .spi0Blk SPI0_CNTLSTAT (s i % WORD))

/-- The events of one two-byte exchange: activation with control word `cs`,
byte `b1` out, a wait of `k1 + 1` status reads, one byte in, byte `b2` out, a
wait of `k2 + 1` status reads, one byte in, a wait of `k3 + 1` status reads,
and the write of the done flag. -/
def xferTrace (cs b1 b2 : Nat) (status fifo : Nat → Nat) (k1 k2 k3 : Nat) : List Ev :=
  [Ev.wr .spi0Blk SPI0_CNTLSTAT cs, Ev.wr .spi0Blk SPI0_FIFO b1] ++
  (statusReads status k1 ++
  ([Ev.rd .spi0Blk SPI0_FIFO (fifo 0 % WORD), Ev.wr .spi0Blk SPI0_FIFO b2] ++
  (statusReads (fun n => status (n + (k1 + 1))) k2 ++
  ([Ev.rd .spi0Blk SPI0_FIFO (fifo 1 % WORD)] ++
  (statusReads (fun n => status (n + (k2 + 1) + (k1 + 1))) k3 ++
  [Ev.wr .spi0Blk SPI0_CNTLSTAT SPI0_CS_DONE])))))

/-- The state after one two-byte exchange. -/
def xferWorld (w : World) (cs b1 b2 k1 k2 k3 : Nat) : World :=
  { w with
    spi0_mem := fun i =>
      if i = SPI0_CNTLSTAT then SPI0_CS_DONE else if i = SPI0_FIFO then b2 else w.spi0_mem i
    spi0_status := fun n => w.spi0_status (n + (k3 + 1) + (k2 + 1) + (k1 + 1))
    spi0_fifo := fun n => w.spi0_fifo (n + 2)
    trace := w.trace ++ xferTrace cs b1 b2 w.spi0_status w.spi0_fifo k1 k2 k3 }

/-- The three waits of an exchange end after `k1 + 1`, `k2 + 1` and `k3 + 1`
status reads. -/
def Waits (s : Nat → Nat) (k1 k2 k3 : Nat) : Prop :=
  FirstSet SPI0_CS_RXFIFODATA s k1 ∧
  FirstSet SPI0_CS_RXFIFODATA (fun n => s (n + (k1 + 1))) k2 ∧
  FirstSet SPI0_CS_DONE (fun n => s (n + (k2 + 1) + (k1 + 1))) k3

/-- The first byte `write_dac` sends. -/
def dacByte1 (chan val : Int) : Nat :=
  toU8 (0x30 ||| shl32 (toU32 chan) 7 ||| ((toU32 val &&& 0xff) >>> 4))

/-- The second byte `write_dac` sends. -/
def dacByte2 (val : Int) : Nat :=
  toU8 (shl32 (toU32 val &&& 0xff) 4 &&& 0xf0)

/-- The command byte `read_adc` sends. -/
def adcCmd (chan : Int) : Nat :=
  toU8 (0x68 ||| shl32 (toU32 chan) 4)

/-- The states of the GPIO life cycle: unmapped with no client, or mapped with one. -/
def LifeInv (w : World) : Prop :=
  (w.gpio = none ∧ w.gpio_clients = 0) ∨ (w.gpio ≠ none ∧ w.gpio_clients = 1)

/-- The state reached from `world0` by the calls init, cleanup, cleanup, init. -/
def worldCycled : World :=
  { world0 with
    gpio := some 0x76f00000
    gpio_clients := 1
    trace := [Ev.sys_open, Ev.sys_mmap .gpioBlk, Ev.sys_close, Ev.sys_munmap .gpioBlk,
              Ev.sys_open, Ev.sys_mmap .gpioBlk, Ev.sys_close] }


/-- The function-select word obtained from `old` by clearing the 3-bit field
at bit position `pos` and or-ing `m` into it. -/
def selWord (old m pos : Nat) : Nat :=
  ((old &&& not32 (7 <<< pos)) % WORD ||| (m <<< pos)) % WORD

/-- The GPIO block content after the field of pin `p` has received `m`. -/
def selMem (p m : Nat) (mem : Nat → Nat) : Nat → Nat := fun i =>
  if i = p / 10 then selWord (mem (p / 10)) m ((p % 10) * 3) else mem i

/-- The register accesses of one function selection on block content `mem`. -/
def selTrace (p : Nat) (m : gpio_sel_mode_t) (mem : Nat → Nat) : List Ev :=
  Ev.rd .gpioBlk (p / 10) (mem (p / 10)) ::
  Ev.wr .gpioBlk (p / 10) ((mem (p / 10) &&& not32 (7 <<< ((p % 10) * 3))) % WORD) ::
  if m = .GPIO_INPUT then [] else
    [Ev.rd .gpioBlk (p / 10) ((mem (p / 10) &&& not32 (7 <<< ((p % 10) * 3))) % WORD),
     Ev.wr .gpioBlk (p / 10) (selWord (mem (p / 10)) m.val ((p % 10) * 3))]


/-- The GPIO block content after pins 7, 8, 9, 10 and 11 have been put in
`GPIO_ALT0`, in that order. -/
def alt0Mem (gm : Nat → Nat) : Nat → Nat :=
  selMem 11 gpio_sel_mode_t.GPIO_ALT0.val
    (selMem 10 gpio_sel_mode_t.GPIO_ALT0.val
      (selMem 9 gpio_sel_mode_t.GPIO_ALT0.val
        (selMem 8 gpio_sel_mode_t.GPIO_ALT0.val
          (selMem 7 gpio_sel_mode_t.GPIO_ALT0.val gm))))

/-- The events of a first `spi_access_init`: the two mappings, the five
function selections and the SPI0 setup. -/
def spiInitTrace (gm : Nat → Nat) : List Ev :=
  [Ev.sys_open, Ev.sys_mmap .gpioBlk, Ev.sys_close,
   Ev.sys_open, Ev.sys_mmap .spi0Blk, Ev.sys_close] ++
  (selTrace 7 .GPIO_ALT0 gm ++
  (selTrace 8 .GPIO_ALT0 (selMem 7 gpio_sel_mode_t.GPIO_ALT0.val gm) ++
  (selTrace 9 .GPIO_ALT0
    (selMem 8 gpio_sel_mode_t.GPIO_ALT0.val (selMem 7 gpio_sel_mode_t.GPIO_ALT0.val gm)) ++
  (selTrace 10 .GPIO_ALT0
    (selMem 9 gpio_sel_mode_t.GPIO_ALT0.val
      (selMem 8 gpio_sel_mode_t.GPIO_ALT0.val (selMem 7 gpio_sel_mode_t.GPIO_ALT0.val gm))) ++
  (selTrace 11 .GPIO_ALT0
    (selMem 10 gpio_sel_mode_t.GPIO_ALT0.val
      (selMem 9 gpio_sel_mode_t.GPIO_ALT0.val
        (selMem 8 gpio_sel_mode_t.GPIO_ALT0.val
          (selMem 7 gpio_sel_mode_t.GPIO_ALT0.val gm)))) ++
  [Ev.wr .spi0Blk SPI0_CLKSPEED SPI_SPEED,
   Ev.wr .spi0Blk SPI0_CNTLSTAT SPI0_CS_CLRALL])))))


/-- Whether an event is a read or a write of register `off` of block `b`. -/
def Ev.touches (b : Blk) (off : Nat) : Ev → Bool
  | .rd b1 o _ => decide (b1 = b ∧ o = off)
  | .wr b1 o _ => decide (b1 = b ∧ o = off)
  | _ => false

/-- The reads and writes of register `off` of block `b`, in order. -/
def accessesTo (b : Blk) (off : Nat) (t : List Ev) : List Ev :=
  t.filter (Ev.touches b off)


/-- The awaited flag is clear in every status value of the stream `s`. -/
def NeverSet (flag : Nat) (s : Nat → Nat) : Prop :=
  ∀ i, (s i % WORD) &&& flag = 0

/-- One of the three waits of an exchange never sees its flag: the first
wait, or the second after the first has ended, or the third after the first
two have ended. -/
def Stalls (s : Nat → Nat) : Prop :=
  NeverSet SPI0_CS_RXFIFODATA s ∨
  (∃ k1, FirstSet SPI0_CS_RXFIFODATA s k1 ∧
    NeverSet SPI0_CS_RXFIFODATA (fun n => s (n + (k1 + 1)))) ∨
  (∃ k1 k2, FirstSet SPI0_CS_RXFIFODATA s k1 ∧
    FirstSet SPI0_CS_RXFIFODATA (fun n => s (n + (k1 + 1))) k2 ∧
    NeverSet SPI0_CS_DONE (fun n => s (n + (k2 + 1) + (k1 + 1))))

/-- The state `worldMapped` with a device whose status never shows a flag. -/
def worldStalled : World :=
  { worldMapped with spi0_status := fun _ => 0 }


/-- The state `world0` with the GPIO block mapped for one client of its own
and the SPI0 block not mapped. -/
def worldGpioOnly : World :=
  { world0 with gpio := some 0x76f00000, gpio_clients := 1 }


/-- The word offset an event accesses in block `b`, when it is a read or a
write of that block. -/
def Ev.offset? (b : Blk) : Ev → Option Nat
  | .rd b1 o _ => if b1 = b then some o else none
  | .wr b1 o _ => if b1 = b then some o else none
  | _ => none

/-- Every read and write of block `b` in the trace `t` is at a word offset
below `bound`. -/
def InBlock (b : Blk) (bound : Nat) (t : List Ev) : Prop :=
  ∀ e, e ∈ t → ∀ off, e.offset? b = some off → off < bound


/-- Modelled from the spec: the reaction of the simulated register backing to
one event (the backing itself is no part of the sources). A write of `v` to
set register `i` (word `7 + i`, `i` being 0 or 1) sets the bits of `v` in
level register `i` (word `13 + i`); a write of `v` to clear register `i` (word
`10 + i`) clears them; the set or clear register, being write-only and
self-clearing, holds 0 afterwards. Every other event leaves the block as it
is. -/
def simReact (mem : Nat → Nat) : Ev → (Nat → Nat)
  | .wr .gpioBlk off v =>
    if off = GPIO_SET 0 ∨ off = GPIO_SET 1 then
      fun i => if i = GPIO_LEV (off - GPIO_SET 0) then (mem i ||| v) % WORD
        else if i = off then 0 else mem i
    else if off = GPIO_CLR 0 ∨ off = GPIO_CLR 1 then
      fun i => if i = GPIO_LEV (off - GPIO_CLR 0) then (mem i &&& not32 v) % WORD
        else if i = off then 0 else mem i
    else mem
  | _ => mem

/-- Modelled from the spec: the block content after the simulated register
backing has reacted to the events `t`, oldest first. -/
def simBacking (t : List Ev) (mem : Nat → Nat) : Nat → Nat :=
  t.foldl simReact mem

/-- Modelled from the spec: a routine run on the simulated register backing.
The backing reacts to the events of the call when the call returns; for
`gpio_pin_write`, whose only register access is its one write, that is the
block content right after the write. -/
def onSimBacking {α : Type} (p : Prog α) : Prog α := fun w =>
  match p w with
  | .ret a w1 =>
    .ret a { w1 with gpio_mem := simBacking (w1.trace.drop w.trace.length) w1.gpio_mem }
  | .exit w1 => .exit w1
  | .fault w1 => .fault w1
  | .hang => .hang

/-! ## Basic facts -/

theorem bind_apply {α β : Type} (m : Prog α) (f : α → Prog β) (w : World) :
    (m >>= f) w = Prog.bind m f w := rfl

theorem pure_apply {α : Type} (a : α) (w : World) :
    (Pure.pure a : Prog α) w = .ret a w := rfl

theorem short_wait_apply (w : World) : short_wait w = .ret () w := by
  simp [short_wait]

theorem gpio_rd_mapped (off : Nat) (w : World) (a : Nat) (h : w.gpio = some a) :
    gpio_rd off w = .ret (w.gpio_mem off) (w.log (.rd .gpioBlk off (w.gpio_mem off))) := by
  simp [gpio_rd, h]

theorem gpio_wr_mapped (off v : Nat) (w : World) (a : Nat) (h : w.gpio = some a) :
    gpio_wr off v w = .ret () { w with
      gpio_mem := fun i => if i = off then v % WORD else w.gpio_mem i
      trace := w.trace ++ [.wr .gpioBlk off (v % WORD)] } := by
  simp [gpio_wr, h]

theorem mapped_iff {p : Option Nat} : p ≠ none ↔ ∃ a, p = some a := by
  cases p <;> simp

/-! ## Bit-level facts -/

theorem testBit_lt_eight {m j : Nat} (hm : m < 8) (hj : 3 ≤ j) : m.testBit j = false := by
  apply Nat.testBit_lt_two_pow
  calc m < 8 := hm
    _ = 2 ^ 3 := by norm_num
    _ ≤ 2 ^ j := Nat.pow_le_pow_right (by norm_num) hj

/-- Clearing a 3-bit field and or-ing a mode into it leaves the mode in the field. -/
theorem fselField_set (old m pos : Nat) (hm : m < 8) (hpos : pos + 3 ≤ 32) :
    fselField (((old &&& not32 (7 <<< pos)) % WORD ||| (m <<< pos)) % WORD) pos = m := by
  unfold fselField not32 WORD
  apply Nat.eq_of_testBit_eq
  intro i
  have h7 : (7 : Nat) = 2 ^ 3 - 1 := by norm_num
  rw [h7]
  simp only [Nat.testBit_and, Nat.testBit_shiftRight, Nat.testBit_mod_two_pow, Nat.testBit_or,
    Nat.testBit_xor, Nat.testBit_shiftLeft, Nat.testBit_two_pow_sub_one]
  by_cases hi : i < 3
  · have : pos + i < 32 := by omega
    simp [hi, this]
  · simp [hi, testBit_lt_eight hm (show 3 ≤ i by omega)]

theorem mode_val_lt (m : gpio_sel_mode_t) : m.val < 8 := by
  cases m <;> simp [gpio_sel_mode_t.val]

theorem mode_val_eq_zero (m : gpio_sel_mode_t) : m.val = 0 ↔ m = .GPIO_INPUT := by
  cases m <;> simp [gpio_sel_mode_t.val]

/-! ## Function selection -/

/-- The word left in the function-select register of pin `p`. -/
theorem fsel_word_input (x pos : Nat) :
    ((x &&& not32 (7 <<< pos)) % WORD ||| (0 <<< pos)) % WORD = (x &&& not32 (7 <<< pos)) % WORD := by
  simp [Nat.mod_mod]

/-- The outcome of `gpio_function_sel` on a mapped block: the register of
pin `p` is read, written with the field cleared and, for a mode other than
input, read and written again with the mode or-ed in. -/
theorem gpio_function_sel_mapped (p : Nat) (m : gpio_sel_mode_t) (w : World)
    (hp : p ≤ 53) (hmap : w.gpio ≠ none) :
    gpio_function_sel p m w = .ret () { w with
      gpio_mem := fun i => if i = p / 10 then
        ((w.gpio_mem (p / 10) &&& not32 (7 <<< ((p % 10) * 3))) % WORD |||
          (m.val <<< ((p % 10) * 3))) % WORD else w.gpio_mem i
      trace := w.trace ++
        (.rd .gpioBlk (p / 10) (w.gpio_mem (p / 10)) ::
         .wr .gpioBlk (p / 10) ((w.gpio_mem (p / 10) &&& not32 (7 <<< ((p % 10) * 3))) % WORD) ::
         if m = .GPIO_INPUT then [] else
          [.rd .gpioBlk (p / 10) ((w.gpio_mem (p / 10) &&& not32 (7 <<< ((p % 10) * 3))) % WORD),
           .wr .gpioBlk (p / 10) (((w.gpio_mem (p / 10) &&& not32 (7 <<< ((p % 10) * 3))) % WORD |||
              (m.val <<< ((p % 10) * 3))) % WORD)]) } := by
  obtain ⟨a, ha⟩ := mapped_iff.mp hmap
  have hp1 : ¬ p > 53 := by omega
  by_cases hm : m = .GPIO_INPUT
  · subst hm
    simp [gpio_function_sel, hp1, ha, bind_apply, Prog.bind, gpio_rd, gpio_wr, World.log,
      GPIO_FSEL, pure_apply, gpio_sel_mode_t.val, Nat.mod_mod]
  · simp [gpio_function_sel, hp1, ha, bind_apply, Prog.bind, gpio_rd, gpio_wr, World.log,
      GPIO_FSEL, pure_apply, hm]
    funext i
    by_cases hi : i = p / 10 <;> simp [hi]

/-- C1: for every pin `p ≤ 53`, every mode `m` and every prior content of the
mapped GPIO block, `gpio_function_sel p m` returns, and afterwards the 3-bit
field at bit position `(p mod 10) * 3` of function-select register `p / 10`
holds the encoding of `m`. -/
theorem gpio_function_sel_sets_field (p : Nat) (m : gpio_sel_mode_t) (w : World)
    (hp : p ≤ 53) (hmap : w.gpio ≠ none) :
    ∃ w1, gpio_function_sel p m w = .ret () w1 ∧
      fselField (w1.gpio_mem (p / 10)) ((p % 10) * 3) = m.val := by
  refine ⟨_, gpio_function_sel_mapped p m w hp hmap, ?_⟩
  simp only [if_true]
  exact fselField_set _ _ _ (mode_val_lt m) (by omega)

/-- Witness for C1: pin 17 set to `GPIO_ALT3` in the state `worldMapped`. -/
theorem gpio_function_sel_sets_field_witness :
    ∃ w1, gpio_function_sel 17 .GPIO_ALT3 worldMapped = .ret () w1 ∧
      fselField (w1.gpio_mem (17 / 10)) ((17 % 10) * 3) = 7 :=
  gpio_function_sel_sets_field 17 .GPIO_ALT3 worldMapped (by decide) (by decide)

/-! ## Pin write and pin read -/

theorem shl32_one (pos : Nat) (h : pos < 32) : shl32 1 pos = 2 ^ pos := by
  unfold shl32 WORD
  rw [Nat.one_shiftLeft]
  exact Nat.mod_eq_of_lt (Nat.pow_lt_pow_right (by norm_num) h)

theorem two_pow_lt_word (pos : Nat) (h : pos < 32) : 2 ^ pos % WORD = 2 ^ pos :=
  Nat.mod_eq_of_lt (Nat.pow_lt_pow_right (by norm_num) h)

theorem and_two_pow_ne_zero (x n : Nat) : x &&& 2 ^ n ≠ 0 ↔ x.testBit n = true := by
  constructor
  · intro h
    by_contra hb
    apply h
    apply Nat.eq_of_testBit_eq
    intro i
    simp only [Nat.testBit_and, Nat.testBit_two_pow, Nat.zero_testBit]
    by_cases hi : n = i
    · subst hi
      simp [hb]
    · simp [hi]
  · intro h h0
    have h1 : (x &&& 2 ^ n).testBit n = true := by
      simp [Nat.testBit_and, Nat.testBit_two_pow, h]
    rw [h0] at h1
    simp at h1

/-- The outcome of `gpio_pin_write` on a mapped block: one write of the pin's
bit to the set register (high) or the clear register (low) of the pin. -/
theorem gpio_pin_write_mapped (p : Nat) (L : gpio_pin_val_t) (w : World)
    (hp : p ≤ 53) (hmap : w.gpio ≠ none) :
    gpio_pin_write p L w = .ret () { w with
      gpio_mem := fun i =>
        if i = (if L = .GPIO_HIGH then 7 else 10) + p / 32 then 2 ^ (p % 32) else w.gpio_mem i
      trace := w.trace ++
        [.wr .gpioBlk ((if L = .GPIO_HIGH then 7 else 10) + p / 32) (2 ^ (p % 32))] } := by
  obtain ⟨a, ha⟩ := mapped_iff.mp hmap
  have hp1 : ¬ p > 53 := by omega
  have hpos : p % 32 < 32 := Nat.mod_lt _ (by norm_num)
  cases L <;>
    simp [gpio_pin_write, hp1, ha, gpio_wr, GPIO_SET, GPIO_CLR, shl32_one _ hpos,
      two_pow_lt_word _ hpos]

/-- The outcome of `gpio_pin_read` on a mapped block and a non-null output
location: one read of the level register of the pin; the location receives
high when the pin's bit is set there, else low. -/
theorem gpio_pin_read_mapped (p : Nat) (c : gpio_pin_val_t) (w : World)
    (hp : p ≤ 53) (hmap : w.gpio ≠ none) :
    gpio_pin_read p (some c) w =
      .ret (some (if (w.gpio_mem (13 + p / 32)).testBit (p % 32) = true
                  then gpio_pin_val_t.GPIO_HIGH else gpio_pin_val_t.GPIO_LOW))
        (w.log (.rd .gpioBlk (13 + p / 32) (w.gpio_mem (13 + p / 32)))) := by
  obtain ⟨a, ha⟩ := mapped_iff.mp hmap
  have hp1 : ¬ p > 53 := by omega
  have hpos : p % 32 < 32 := Nat.mod_lt _ (by norm_num)
  simp only [gpio_pin_read, hp1, ha, if_false, Option.isNone_some, Bool.false_eq_true,
    bind_apply, Prog.bind, gpio_rd, GPIO_LEV, pure_apply, shl32_one _ hpos,
    and_two_pow_ne_zero]

/-- On a backing that is plain memory, `gpio_pin_write p L` followed by
`gpio_pin_read p` returns the level that bit `p mod 32` of level register
`p / 32` (word `13 + p / 32`) held before the write: the write goes to the set
or clear register, and memory alone does not carry it over to the level
register. -/
theorem gpio_pin_write_then_read_plain (p : Nat) (L c : gpio_pin_val_t) (w : World)
    (hp : p ≤ 53) (hmap : w.gpio ≠ none) :
    ∃ w2, (gpio_pin_write p L >>= fun _ => gpio_pin_read p (some c)) w =
      .ret (some (if (w.gpio_mem (13 + p / 32)).testBit (p % 32) = true
                  then gpio_pin_val_t.GPIO_HIGH else gpio_pin_val_t.GPIO_LOW)) w2 := by
  rw [bind_apply, Prog.bind, gpio_pin_write_mapped p L w hp hmap]
  simp only
  rw [gpio_pin_read_mapped p c _ hp (by simpa using hmap)]
  have hne : ¬ (13 + p / 32 = (if L = .GPIO_HIGH then 7 else 10) + p / 32) := by
    cases L <;> simp
  simp only [hne, if_false]
  exact ⟨_, rfl⟩

/-- A routine that returns, run on the simulated register backing. -/
theorem onSimBacking_ret {α : Type} (p : Prog α) (w w1 : World) (a : α) (t : List Ev)
    (h : p w = .ret a w1) (ht : w1.trace = w.trace ++ t) :
    onSimBacking p w = .ret a { w1 with gpio_mem := simBacking t w1.gpio_mem } := by
  unfold onSimBacking
  rw [h]
  simp only [ht, List.drop_left]

theorem testBit_or_two_pow_mod (x pos : Nat) (h : pos < 32) :
    ((x ||| 2 ^ pos) % WORD).testBit pos = true := by
  unfold WORD
  simp only [Nat.testBit_mod_two_pow, Nat.testBit_or, Nat.testBit_two_pow]
  simp [h]

theorem testBit_and_not_two_pow_mod (x pos : Nat) (h : pos < 32) :
    ((x &&& not32 (2 ^ pos)) % WORD).testBit pos = false := by
  unfold not32 WORD
  simp only [Nat.testBit_mod_two_pow, Nat.testBit_and, Nat.testBit_xor, Nat.testBit_two_pow,
    Nat.testBit_two_pow_sub_one]
  simp [h]

/-- The level register of pin `p` after the simulated backing has reacted to
the write of `gpio_pin_write p L`. -/
theorem simReact_pin_write (p : Nat) (L : gpio_pin_val_t) (mem : Nat → Nat) (hp : p ≤ 53) :
    (simReact mem (Ev.wr .gpioBlk ((if L = .GPIO_HIGH then 7 else 10) + p / 32)
        (2 ^ (p % 32))) (13 + p / 32)).testBit (p % 32) =
      decide (L = .GPIO_HIGH) := by
  have hpos : p % 32 < 32 := Nat.mod_lt _ (by norm_num)
  have hidx : p / 32 = 0 ∨ p / 32 = 1 := by omega
  cases L with
  | GPIO_HIGH =>
    rcases hidx with h | h <;>
      simp [simReact, GPIO_SET, GPIO_CLR, GPIO_LEV, h, testBit_or_two_pow_mod _ _ hpos]
  | GPIO_LOW =>
    rcases hidx with h | h <;>
      simp [simReact, GPIO_SET, GPIO_CLR, GPIO_LEV, h, testBit_and_not_two_pow_mod _ _ hpos]

/-- The outcome of `gpio_pin_write` on the simulated register backing. -/
theorem gpio_pin_write_onSim (p : Nat) (L : gpio_pin_val_t) (w : World)
    (hp : p ≤ 53) (hmap : w.gpio ≠ none) :
    onSimBacking (gpio_pin_write p L) w = .ret () { w with
      gpio_mem := simReact
        (fun i => if i = (if L = .GPIO_HIGH then 7 else 10) + p / 32 then 2 ^ (p % 32)
          else w.gpio_mem i)
        (Ev.wr .gpioBlk ((if L = .GPIO_HIGH then 7 else 10) + p / 32) (2 ^ (p % 32)))
      trace := w.trace ++
        [Ev.wr .gpioBlk ((if L = .GPIO_HIGH then 7 else 10) + p / 32) (2 ^ (p % 32))] } := by
  rw [onSimBacking_ret (gpio_pin_write p L) w _ () _ (gpio_pin_write_mapped p L w hp hmap) rfl]
  rfl

/-- The outcome of `gpio_pin_read` on the simulated register backing. -/
theorem gpio_pin_read_onSim (p : Nat) (c : gpio_pin_val_t) (w : World)
    (hp : p ≤ 53) (hmap : w.gpio ≠ none) :
    onSimBacking (gpio_pin_read p (some c)) w =
      .ret (some (if (w.gpio_mem (13 + p / 32)).testBit (p % 32) = true
                  then gpio_pin_val_t.GPIO_HIGH else gpio_pin_val_t.GPIO_LOW))
        { w with
          trace := w.trace ++ [Ev.rd .gpioBlk (13 + p / 32) (w.gpio_mem (13 + p / 32))] } := by
  rw [onSimBacking_ret (gpio_pin_read p (some c)) w _ _ _ (gpio_pin_read_mapped p c w hp hmap)
    rfl]
  rfl

/-- C2: for every pin `p ≤ 53` and every level `L`, on the simulated register
backing (a write to a set register sets the written bits in the level
register, a write to a clear register clears them) and a mapped block,
`gpio_pin_write p L` followed by `gpio_pin_read p` returns `L`, whatever the
registers held before. -/
theorem gpio_pin_write_read_roundtrip (p : Nat) (L c : gpio_pin_val_t) (w : World)
    (hp : p ≤ 53) (hmap : w.gpio ≠ none) :
    ∃ w2, (onSimBacking (gpio_pin_write p L) >>= fun _ =>
        onSimBacking (gpio_pin_read p (some c))) w = .ret (some L) w2 := by
  rw [bind_apply, Prog.bind, gpio_pin_write_onSim p L w hp hmap]
  simp only
  rw [gpio_pin_read_onSim p c _ hp (by simpa using hmap)]
  simp only
  rw [simReact_pin_write p L _ hp]
  cases L
  · exact ⟨_, rfl⟩
  · exact ⟨_, rfl⟩

/-- Witness for C2: pin 5 written high, then read, in `worldMapped`, whose
level registers are zero. -/
theorem gpio_pin_write_read_roundtrip_witness :
    ∃ w2, (onSimBacking (gpio_pin_write 5 .GPIO_HIGH) >>= fun _ =>
        onSimBacking (gpio_pin_read 5 (some .GPIO_LOW))) worldMapped =
      .ret (some gpio_pin_val_t.GPIO_HIGH) w2 :=
  gpio_pin_write_read_roundtrip 5 .GPIO_HIGH .GPIO_LOW worldMapped (by decide) (by decide)

/-! ## Polling -/

theorem statusReads_zero (s : Nat → Nat) :
    statusReads s 0 = [Ev.rd .spi0Blk SPI0_CNTLSTAT (s 0 % WORD)] := rfl

theorem statusReads_succ (s : Nat → Nat) (k : Nat) :
    statusReads s (k + 1) =
      Ev.rd .spi0Blk SPI0_CNTLSTAT (s 0 % WORD) :: statusReads (fun n => s (n + 1)) k := by
  unfold statusReads
  rw [List.range_succ_eq_map]
  simp [List.map_map, Function.comp_def]

/-- A wait whose flag is first set in status value `k` returns after exactly
`k + 1` status reads, given more than `k` rounds. -/
theorem poll_returns (flag : Nat) (k : Nat) :
    ∀ (fuel : Nat) (w : World) (a : Nat), w.spi0 = some a →
      FirstSet flag w.spi0_status k → k < fuel →
      poll flag fuel w = .ret () { w with
        spi0_status := fun n => w.spi0_status (n + (k + 1))
        trace := w.trace ++ statusReads w.spi0_status k } := by
  induction k with
  | zero =>
    intro fuel w a ha hfs hk
    obtain ⟨f, rfl⟩ : ∃ f, fuel = f + 1 := ⟨fuel - 1, by omega⟩
    have hset := hfs.2
    simp [poll, bind_apply, Prog.bind, spi0_rd, ha, SPI0_CNTLSTAT, hset, pure_apply,
      statusReads_zero]
  | succ k ih =>
    intro fuel w a ha hfs hk
    obtain ⟨f, rfl⟩ : ∃ f, fuel = f + 1 := ⟨fuel - 1, by omega⟩
    have hclear := hfs.1 0 (by omega)
    have hfs1 : FirstSet flag (fun n => w.spi0_status (n + 1)) k :=
      ⟨fun i hi => hfs.1 (i + 1) (by omega), hfs.2⟩
    simp only [poll, bind_apply, Prog.bind, spi0_rd, ha, SPI0_CNTLSTAT, if_true, hclear]
    rw [ih f _ a rfl hfs1 (by omega)]
    simp [statusReads_succ, SPI0_CNTLSTAT, Nat.add_assoc, Nat.add_comm 1]

/-- A wait whose flag is not set within the first `fuel` status values has
not returned after `fuel` rounds. -/
theorem poll_hangs (flag : Nat) :
    ∀ (fuel : Nat) (w : World) (a : Nat), w.spi0 = some a →
      (∀ i, i < fuel → (w.spi0_status i % WORD) &&& flag = 0) →
      poll flag fuel w = .hang := by
  intro fuel
  induction fuel with
  | zero => intro w a _ _; rfl
  | succ f ih =>
    intro w a ha hclear
    have h0 := hclear 0 (by omega)
    simp only [poll, bind_apply, Prog.bind, spi0_rd, ha, SPI0_CNTLSTAT, if_true, h0]
    exact ih _ a rfl (fun i hi => hclear (i + 1) (by omega))

/-- The same fact with the state spelled out field by field. -/
theorem poll_mk (flag k fuel : Nat) (g : Option Nat) (gc a sc : Nat)
    (gm sm st ff : Nat → Nat) (os : OS) (tr : List Ev)
    (hfs : FirstSet flag st k) (hk : k < fuel) :
    poll flag fuel ⟨g, gc, some a, sc, gm, sm, st, ff, os, tr⟩ =
      .ret () ⟨g, gc, some a, sc, gm, sm, fun n => st (n + (k + 1)), ff, os,
        tr ++ statusReads st k⟩ :=
  poll_returns flag k fuel _ a rfl hfs hk

/-- On a stream where the flag is seen set from any point on, the flag has a
first position, also after `d` values have been consumed. -/
theorem exists_firstSet (flag : Nat) (s : Nat → Nat)
    (h : ∀ n, ∃ m, n ≤ m ∧ (s m % WORD) &&& flag ≠ 0) (d : Nat) :
    ∃ k, FirstSet flag (fun n => s (n + d)) k := by
  classical
  have hex : ∃ k, (s (k + d) % WORD) &&& flag ≠ 0 := by
    obtain ⟨m, hm, hset⟩ := h d
    exact ⟨m - d, by rwa [Nat.sub_add_cancel hm]⟩
  refine ⟨Nat.find hex, ?_, Nat.find_spec hex⟩
  intro i hi
  have := Nat.find_min hex hi
  simpa using this

/-- On a responsive device the three waits of an exchange end. -/
theorem responsive_waits (s : Nat → Nat) (h : Responsive s) : ∃ k1 k2 k3, Waits s k1 k2 k3 := by
  obtain ⟨hrx, hdone⟩ := h
  obtain ⟨k1, hk1⟩ := exists_firstSet _ s hrx 0
  obtain ⟨k2, hk2⟩ := exists_firstSet _ s hrx (k1 + 1)
  obtain ⟨k3, hk3⟩ := exists_firstSet _ s hdone (k2 + 1 + (k1 + 1))
  refine ⟨k1, k2, k3, ?_, hk2, ?_⟩
  · simpa using hk1
  · simpa [Nat.add_assoc] using hk3

/-! ## The two SPI exchanges -/

theorem toU8_mod_word (x : Nat) : toU8 x % WORD = toU8 x := by
  unfold toU8 WORD
  omega

theorem spi0_rd_fifo_mk (g : Option Nat) (gc a sc : Nat)
    (gm sm st ff : Nat → Nat) (os : OS) (tr : List Ev) :
    spi0_rd SPI0_FIFO ⟨g, gc, some a, sc, gm, sm, st, ff, os, tr⟩ =
      .ret (ff 0 % WORD) ⟨g, gc, some a, sc, gm, sm, st, fun n => ff (n + 1), os,
        tr ++ [Ev.rd .spi0Blk SPI0_FIFO (ff 0 % WORD)]⟩ := by
  simp [spi0_rd, SPI0_FIFO, SPI0_CNTLSTAT]

theorem spi0_wr_mk (off v : Nat) (g : Option Nat) (gc a sc : Nat)
    (gm sm st ff : Nat → Nat) (os : OS) (tr : List Ev) :
    spi0_wr off v ⟨g, gc, some a, sc, gm, sm, st, ff, os, tr⟩ =
      .ret () ⟨g, gc, some a, sc, gm, fun i => if i = off then v % WORD else sm i, st, ff, os,
        tr ++ [Ev.wr .spi0Blk off (v % WORD)]⟩ := by
  simp [spi0_wr]

theorem write_dac_returns (fuel : Nat) (c v : Int) (w : World) (a k1 k2 k3 : Nat)
    (ha : w.spi0 = some a) (hw : Waits w.spi0_status k1 k2 k3)
    (h1 : k1 < fuel) (h2 : k2 < fuel) (h3 : k3 < fuel) :
    write_dac fuel c v w = .ret ()
      (xferWorld w (GB_ADC_SPI0_CS ||| SPI0_CS_ACTIVATE) (dacByte1 c v) (dacByte2 v) k1 k2 k3) := by
  obtain ⟨hw1, hw2, hw3⟩ := hw
  obtain ⟨g, gc, sp, sc, gm, sm, st, ff, os, tr⟩ := w
  simp only at ha hw1 hw2 hw3
  subst ha
  simp only [write_dac, bind_apply, Prog.bind, short_wait_apply, spi0_wr_mk]
  rw [poll_mk _ k1 fuel _ _ _ _ _ _ _ _ _ _ hw1 h1]
  simp only [spi0_rd_fifo_mk, spi0_wr_mk]
  rw [poll_mk _ k2 fuel _ _ _ _ _ _ _ _ _ _ hw2 h2]
  simp only [spi0_rd_fifo_mk, spi0_wr_mk]
  rw [poll_mk _ k3 fuel _ _ _ _ _ _ _ _ _ _ hw3 h3]
  simp only [spi0_rd_fifo_mk, spi0_wr_mk]
  have e1 : ∀ x, toU8 x % WORD = toU8 x := toU8_mod_word
  have e2 : (GB_ADC_SPI0_CS ||| SPI0_CS_ACTIVATE) % WORD = GB_ADC_SPI0_CS ||| SPI0_CS_ACTIVATE := by
    decide
  have e3 : SPI0_CS_DONE % WORD = SPI0_CS_DONE := by decide
  simp only [xferWorld, xferTrace, dacByte1, dacByte2, e1, e2, e3, List.append_assoc,
    Nat.zero_add, Nat.add_assoc, Nat.reduceAdd]
  congr 2
  funext i
  by_cases h0 : i = SPI0_CNTLSTAT
  · simp [h0]
  · by_cases hf : i = SPI0_FIFO
    · simp [hf]
    · simp [h0, hf]

theorem read_adc_returns (fuel : Nat) (c : Int) (w : World) (a k1 k2 k3 : Nat)
    (ha : w.spi0 = some a) (hw : Waits w.spi0_status k1 k2 k3)
    (h1 : k1 < fuel) (h2 : k2 < fuel) (h3 : k3 < fuel) :
    read_adc fuel c w =
      .ret ((shl32 (toU8 (w.spi0_fifo 0 % WORD)) 8 ||| toU8 (w.spi0_fifo 1 % WORD)) &&& 0x3ff)
        (xferWorld w (GB_DAC_SPI0_CS ||| SPI0_CS_ACTIVATE) (adcCmd c) 0 k1 k2 k3) := by
  obtain ⟨hw1, hw2, hw3⟩ := hw
  obtain ⟨g, gc, sp, sc, gm, sm, st, ff, os, tr⟩ := w
  simp only at ha hw1 hw2 hw3
  subst ha
  simp only [read_adc, bind_apply, Prog.bind, short_wait_apply, spi0_wr_mk]
  rw [poll_mk _ k1 fuel _ _ _ _ _ _ _ _ _ _ hw1 h1]
  simp only [spi0_rd_fifo_mk, spi0_wr_mk]
  rw [poll_mk _ k2 fuel _ _ _ _ _ _ _ _ _ _ hw2 h2]
  simp only [spi0_rd_fifo_mk, spi0_wr_mk]
  rw [poll_mk _ k3 fuel _ _ _ _ _ _ _ _ _ _ hw3 h3]
  simp only [spi0_rd_fifo_mk, spi0_wr_mk, pure_apply]
  have e1 : ∀ x, toU8 x % WORD = toU8 x := toU8_mod_word
  have e2 : (GB_DAC_SPI0_CS ||| SPI0_CS_ACTIVATE) % WORD = GB_DAC_SPI0_CS ||| SPI0_CS_ACTIVATE := by
    decide
  have e3 : SPI0_CS_DONE % WORD = SPI0_CS_DONE := by decide
  simp only [xferWorld, xferTrace, adcCmd, e1, e2, e3, List.append_assoc,
    Nat.zero_add, Nat.add_assoc, Nat.reduceAdd, Nat.zero_mod]
  congr 2
  funext i
  by_cases h0 : i = SPI0_CNTLSTAT
  · simp [h0]
  · by_cases hf : i = SPI0_FIFO
    · simp [hf]
    · simp [h0, hf]

/-! ## Traces of an exchange -/

theorem writesTo_append (b : Blk) (off : Nat) (t1 t2 : List Ev) :
    writesTo b off (t1 ++ t2) = writesTo b off t1 ++ writesTo b off t2 := by
  induction t1 with
  | nil => rfl
  | cons e t ih =>
    cases e with
    | wr b1 off1 v =>
      simp only [List.cons_append, writesTo]
      split <;> simp [ih]
    | _ => simpa only [List.cons_append, writesTo] using ih

theorem writesTo_statusReads (b : Blk) (off : Nat) (s : Nat → Nat) (k : Nat) :
    writesTo b off (statusReads s k) = [] := by
  induction k generalizing s with
  | zero => rfl
  | succ k ih => rw [statusReads_succ]; simp only [writesTo]; exact ih _

theorem readsFrom_append (b : Blk) (off : Nat) (t1 t2 : List Ev) :
    readsFrom b off (t1 ++ t2) = readsFrom b off t1 ++ readsFrom b off t2 := by
  induction t1 with
  | nil => rfl
  | cons e t ih =>
    cases e with
    | rd b1 off1 v =>
      simp only [List.cons_append, readsFrom]
      split <;> simp [ih]
    | _ => simpa only [List.cons_append, readsFrom] using ih

theorem fifo_reads_statusReads (s : Nat → Nat) (k : Nat) :
    readsFrom .spi0Blk SPI0_FIFO (statusReads s k) = [] := by
  induction k generalizing s with
  | zero => rfl
  | succ k ih =>
    rw [statusReads_succ]
    simp only [readsFrom]
    rw [if_neg (by simp [SPI0_FIFO, SPI0_CNTLSTAT])]
    exact ih _

theorem fifo_reads_xferTrace (cs b1 b2 : Nat) (status fifo : Nat → Nat) (k1 k2 k3 : Nat) :
    readsFrom .spi0Blk SPI0_FIFO (xferTrace cs b1 b2 status fifo k1 k2 k3) =
      [fifo 0 % WORD, fifo 1 % WORD] := by
  simp [xferTrace, readsFrom_append, fifo_reads_statusReads, readsFrom]

theorem fifo_writes_xferTrace (cs b1 b2 : Nat) (status fifo : Nat → Nat) (k1 k2 k3 : Nat) :
    writesTo .spi0Blk SPI0_FIFO (xferTrace cs b1 b2 status fifo k1 k2 k3) = [b1, b2] := by
  simp [xferTrace, writesTo_append, writesTo_statusReads, writesTo, SPI0_FIFO, SPI0_CNTLSTAT]

theorem cntlstat_writes_xferTrace (cs b1 b2 : Nat) (status fifo : Nat → Nat) (k1 k2 k3 : Nat) :
    writesTo .spi0Blk SPI0_CNTLSTAT (xferTrace cs b1 b2 status fifo k1 k2 k3) =
      [cs, SPI0_CS_DONE] := by
  simp [xferTrace, writesTo_append, writesTo_statusReads, writesTo, SPI0_FIFO, SPI0_CNTLSTAT]

/-! ## DAC framing and ADC decoding -/

theorem toU32_and_ff (v : Int) : toU32 v &&& 0xff = (v % 256).toNat := by
  have h : toU32 v &&& 0xff = toU32 v % 2 ^ 8 := Nat.and_pow_two_sub_one_eq_mod (toU32 v) 8
  rw [h]
  unfold toU32
  omega

theorem dacByte1_eq (c v : Int) (hc : c = 0 ∨ c = 1) :
    dacByte1 c v = 0x30 ||| (c.toNat <<< 7) ||| ((v % 256).toNat >>> 4) := by
  unfold dacByte1
  rw [toU32_and_ff]
  have hx : (v % 256).toNat >>> 4 < 2 ^ 8 := by
    rw [Nat.shiftRight_eq_div_pow]
    omega
  rcases hc with rfl | rfl
  · have hc0 : shl32 (toU32 0) 7 = Int.toNat 0 <<< 7 := by decide
    have hlt : 0x30 ||| Int.toNat 0 <<< 7 ||| (v % 256).toNat >>> 4 < 2 ^ 8 :=
      Nat.or_lt_two_pow (by decide) hx
    unfold toU8
    rw [hc0]
    exact Nat.mod_eq_of_lt hlt
  · have hc1 : shl32 (toU32 1) 7 = Int.toNat 1 <<< 7 := by decide
    have hlt : 0x30 ||| Int.toNat 1 <<< 7 ||| (v % 256).toNat >>> 4 < 2 ^ 8 :=
      Nat.or_lt_two_pow (by decide) hx
    unfold toU8
    rw [hc1]
    exact Nat.mod_eq_of_lt hlt

theorem dacByte2_eq (v : Int) : dacByte2 v = ((v % 256).toNat <<< 4) &&& 0xF0 := by
  unfold dacByte2
  rw [toU32_and_ff]
  have hs : shl32 (v % 256).toNat 4 = (v % 256).toNat <<< 4 := by
    unfold shl32 WORD
    rw [Nat.shiftLeft_eq]
    omega
  rw [hs]
  have hlt : (v % 256).toNat <<< 4 &&& 0xf0 < 256 :=
    Nat.lt_of_le_of_lt Nat.and_le_right (by decide)
  unfold toU8
  exact Nat.mod_eq_of_lt hlt

theorem adc_value_eq (x y : Nat) :
    (shl32 (toU8 (x % WORD)) 8 ||| toU8 (y % WORD)) &&& 0x3ff =
      (((x % 256) <<< 8) ||| (y % 256)) &&& 0x3FF := by
  have hx : toU8 (x % WORD) = x % 256 := by unfold toU8 WORD; omega
  have hy : toU8 (y % WORD) = y % 256 := by unfold toU8 WORD; omega
  have hs : shl32 (x % 256) 8 = (x % 256) <<< 8 := by
    unfold shl32 WORD
    rw [Nat.shiftLeft_eq]
    omega
  rw [hx, hy, hs]

theorem responsive_worldMapped : Responsive worldMapped.spi0_status := by
  constructor
  · intro n
    refine ⟨n, le_refl n, ?_⟩
    show (0x00030000 % WORD) &&& SPI0_CS_RXFIFODATA ≠ 0
    decide
  · intro n
    refine ⟨n, le_refl n, ?_⟩
    show (0x00030000 % WORD) &&& SPI0_CS_DONE ≠ 0
    decide

theorem waits_worldMapped : Waits worldMapped.spi0_status 0 0 0 := by
  refine ⟨⟨?_, ?_⟩, ⟨?_, ?_⟩, ⟨?_, ?_⟩⟩
  · intro i hi; omega
  · show (0x00030000 % WORD) &&& SPI0_CS_RXFIFODATA ≠ 0
    decide
  · intro i hi; omega
  · show (0x00030000 % WORD) &&& SPI0_CS_RXFIFODATA ≠ 0
    decide
  · intro i hi; omega
  · show (0x00030000 % WORD) &&& SPI0_CS_DONE ≠ 0
    decide

/-- C3: for every channel `c` in {0, 1} and every integer `v`, on a mapped
SPI0 block, in every run in which the three waits end (after `k1 + 1`,
`k2 + 1` and `k3 + 1` status reads, each within the rounds given),
`write_dac c v` returns and the values it writes to the FIFO register are
exactly two, in this order: `0x30 | (c << 7) | ((v & 0xFF) >> 4)` and then
`((v & 0xFF) << 4) & 0xF0`, where `v & 0xFF` is `v mod 256`. -/
theorem write_dac_fifo_bytes (c v : Int) (w : World) (k1 k2 k3 fuel : Nat)
    (hc : c = 0 ∨ c = 1) (hmap : w.spi0 ≠ none) (hw : Waits w.spi0_status k1 k2 k3)
    (h1 : k1 < fuel) (h2 : k2 < fuel) (h3 : k3 < fuel) :
    ∃ w1 t, write_dac fuel c v w = .ret () w1 ∧
      w1.trace = w.trace ++ t ∧
      writesTo .spi0Blk SPI0_FIFO t =
        [0x30 ||| (c.toNat <<< 7) ||| ((v % 256).toNat >>> 4),
         ((v % 256).toNat <<< 4) &&& 0xF0] := by
  obtain ⟨a, ha⟩ := mapped_iff.mp hmap
  refine ⟨_, _, write_dac_returns fuel c v w a k1 k2 k3 ha hw h1 h2 h3, rfl, ?_⟩
  rw [fifo_writes_xferTrace, dacByte1_eq c v hc, dacByte2_eq]

/-- Witness for C3: `write_dac(1, 0x80)` in `worldMapped` writes `0xB8`, then `0x00`. -/
theorem write_dac_fifo_bytes_witness :
    ∃ w1 t, write_dac 1 1 0x80 worldMapped = .ret () w1 ∧
      w1.trace = worldMapped.trace ++ t ∧
      writesTo .spi0Blk SPI0_FIFO t = [0xB8, 0x00] :=
  write_dac_fifo_bytes 1 0x80 worldMapped 0 0 0 1 (Or.inr rfl) (by decide) waits_worldMapped
    (by decide) (by decide) (by decide)

/-- C4: for every channel, on a mapped SPI0 block, in every run in which the
three waits end (after `k1 + 1`, `k2 + 1` and `k3 + 1` status reads, each
within the rounds given), `read_adc` reads the FIFO register exactly twice and
returns `((b1 << 8) | b2) & 0x3FF`, where `b1` and `b2` are the first and the
second value read, each truncated to 8 bits; the value is at most 1023. -/
theorem read_adc_value (c : Int) (w : World) (k1 k2 k3 fuel : Nat)
    (hmap : w.spi0 ≠ none) (hw : Waits w.spi0_status k1 k2 k3)
    (h1 : k1 < fuel) (h2 : k2 < fuel) (h3 : k3 < fuel) :
    ∃ w1 t, read_adc fuel c w =
        .ret ((((w.spi0_fifo 0 % 256) <<< 8) ||| (w.spi0_fifo 1 % 256)) &&& 0x3FF) w1 ∧
      w1.trace = w.trace ++ t ∧
      readsFrom .spi0Blk SPI0_FIFO t = [w.spi0_fifo 0 % WORD, w.spi0_fifo 1 % WORD] ∧
      (((w.spi0_fifo 0 % 256) <<< 8) ||| (w.spi0_fifo 1 % 256)) &&& 0x3FF ≤ 1023 := by
  obtain ⟨a, ha⟩ := mapped_iff.mp hmap
  refine ⟨xferWorld w (GB_DAC_SPI0_CS ||| SPI0_CS_ACTIVATE) (adcCmd c) 0 k1 k2 k3, _,
    ?_, rfl, fifo_reads_xferTrace _ _ _ _ _ _ _ _, Nat.and_le_right⟩
  rw [read_adc_returns fuel c w a k1 k2 k3 ha hw h1 h2 h3, adc_value_eq]

/-- Witness for C4: with response bytes `0x02` and `0x34`, `read_adc` returns `0x234`. -/
theorem read_adc_value_witness :
    ∃ w1 t, read_adc 1 0 worldMapped = .ret 0x234 w1 ∧
      w1.trace = worldMapped.trace ++ t ∧
      readsFrom .spi0Blk SPI0_FIFO t = [0x02, 0x34] ∧
      0x234 ≤ 1023 :=
  read_adc_value 0 worldMapped 0 0 0 1 (by decide) waits_worldMapped
    (by decide) (by decide) (by decide)

/-- C5, as the code behaves: in `worldMapped`, the control-register writes of
`write_dac(1, 0x80)` are `0x81` (chip-select 1, `GB_ADC_SPI0_CS`, with
activate) and the done flag, and those of `read_adc(0)` are `0x80`
(chip-select 0, `GB_DAC_SPI0_CS`, with activate) and the done flag: each
routine activates the bus with the chip-select of the other device. -/
theorem chip_select_of_other_device :
    ((write_dac 1 1 0x80 worldMapped).world?.map
        (fun w => writesTo .spi0Blk SPI0_CNTLSTAT w.trace)) = some [0x81, 0x10000] ∧
    ((read_adc 1 0 worldMapped).world?.map
        (fun w => writesTo .spi0Blk SPI0_CNTLSTAT w.trace)) = some [0x80, 0x10000] ∧
    GB_ADC_SPI0_CS ||| SPI0_CS_ACTIVATE = 0x81 ∧
    GB_DAC_SPI0_CS ||| SPI0_CS_ACTIVATE = 0x80 := by
  refine ⟨?_, ?_, rfl, rfl⟩
  · rw [write_dac_returns 1 1 0x80 worldMapped _ 0 0 0 rfl waits_worldMapped
      (by decide) (by decide) (by decide)]
    simp only [Res.world?, Option.map_some', xferWorld]
    rw [show worldMapped.trace = [] from rfl, List.nil_append, cntlstat_writes_xferTrace]
    rfl
  · rw [read_adc_returns 1 0 worldMapped _ 0 0 0 rfl waits_worldMapped
      (by decide) (by decide) (by decide)]
    simp only [Res.world?, Option.map_some', xferWorld]
    rw [show worldMapped.trace = [] from rfl, List.nil_append, cntlstat_writes_xferTrace]
    rfl

/-! ## Pull up/down control -/

theorem pud_val_mod (v : gpio_pud_val_t) : v.val % WORD = v.val := by
  cases v <;> decide

/-- The outcome of `gpio_pin_pullup` on a mapped block. -/
theorem gpio_pin_pullup_mapped (p : Nat) (v : gpio_pud_val_t) (w : World)
    (hp : p ≤ 53) (hmap : w.gpio ≠ none) :
    gpio_pin_pullup p v w = .ret () { w with
      gpio_mem := fun i =>
        if i = GPIO_PUDCLK (p / 32) then 0
        else if i = GPIO_PUD (p / 32) then 0
        else if i = GPIO_PUDCLK (p / 32) then 1 <<< (p % 32)
        else if i = GPIO_PUD (p / 32) then v.val
        else w.gpio_mem i
      trace := w.trace ++
        [Ev.wr .gpioBlk (GPIO_PUD (p / 32)) v.val,
         Ev.wr .gpioBlk (GPIO_PUDCLK (p / 32)) (1 <<< (p % 32)),
         Ev.wr .gpioBlk (GPIO_PUD (p / 32)) 0,
         Ev.wr .gpioBlk (GPIO_PUDCLK (p / 32)) 0] } := by
  obtain ⟨a, ha⟩ := mapped_iff.mp hmap
  have hp1 : ¬ p > 53 := by omega
  have hpos : p % 32 < 32 := Nat.mod_lt _ (by norm_num)
  simp [gpio_pin_pullup, hp1, ha, bind_apply, Prog.bind, gpio_wr, short_wait_apply,
    shl32_one _ hpos, two_pow_lt_word _ hpos, pud_val_mod, Nat.one_shiftLeft]

/-- The four writes of `gpio_pin_pullup` on a mapped block, at the word offsets
the routine computes: `v` to word `37 + p / 32`, `1 << (p mod 32)` to word
`38 + p / 32`, then 0 to word `37 + p / 32` and 0 to word `38 + p / 32`;
nothing else is appended to the trace. -/
theorem gpio_pin_pullup_four_writes (p : Nat) (v : gpio_pud_val_t) (w : World)
    (hp : p ≤ 53) (hmap : w.gpio ≠ none) :
    ∃ w1, gpio_pin_pullup p v w = .ret () w1 ∧
      w1.trace = w.trace ++
        [Ev.wr .gpioBlk (37 + p / 32) v.val,
         Ev.wr .gpioBlk (38 + p / 32) (1 <<< (p % 32)),
         Ev.wr .gpioBlk (37 + p / 32) 0,
         Ev.wr .gpioBlk (38 + p / 32) 0] :=
  ⟨_, gpio_pin_pullup_mapped p v w hp hmap, rfl⟩

/-- For the pins of bank 0 the four writes are as the control sequence asks:
the pull mode to the pull-control register (word 37), the pin's bit to strobe
register 0 (word 38), then 0 to word 37 and 0 to word 38. -/
theorem gpio_pin_pullup_bank0 (p : Nat) (v : gpio_pud_val_t) (w : World)
    (hp : p ≤ 31) (hmap : w.gpio ≠ none) :
    ∃ w1, gpio_pin_pullup p v w = .ret () w1 ∧
      w1.trace = w.trace ++
        [Ev.wr .gpioBlk 37 v.val, Ev.wr .gpioBlk 38 (1 <<< p),
         Ev.wr .gpioBlk 37 0, Ev.wr .gpioBlk 38 0] := by
  have h0 : p / 32 = 0 := by omega
  have h1 : p % 32 = p := by omega
  refine ⟨_, gpio_pin_pullup_mapped p v w (by omega) hmap, ?_⟩
  simp [GPIO_PUD, GPIO_PUDCLK, h0, h1]

/-- C6, as the code behaves: for pin 40 in `worldMapped`, `gpio_pin_pullup`
performs four writes, but the first and the third go to word 38, which is
strobe register 0, and not to the pull-control register (word 37): the
sequence is 2 to word 38, `1 << 8` to word 39, 0 to word 38, 0 to word 39,
where the control sequence asks for 2 to word 37, `1 << 8` to word 39, 0 to
word 37, 0 to word 39. -/
theorem gpio_pin_pullup_pin40_writes :
    (gpio_pin_pullup 40 .GPIO_PUD_UP worldMapped).world?.map (fun w => w.trace) =
      some [Ev.wr .gpioBlk 38 2, Ev.wr .gpioBlk 39 256, Ev.wr .gpioBlk 38 0,
            Ev.wr .gpioBlk 39 0] ∧
    [Ev.wr .gpioBlk 38 2, Ev.wr .gpioBlk 39 256, Ev.wr .gpioBlk 38 0, Ev.wr .gpioBlk 39 0] ≠
      [Ev.wr .gpioBlk 37 2, Ev.wr .gpioBlk 39 (1 <<< (40 % 32)), Ev.wr .gpioBlk 37 0,
       Ev.wr .gpioBlk 39 0] ∧
    GPIO_PUDCLK 0 = 38 := by
  refine ⟨?_, by decide, rfl⟩
  rw [gpio_pin_pullup_mapped 40 .GPIO_PUD_UP worldMapped (by decide) (by decide)]
  rfl

/-- C7, as the code behaves: for pin 32 in `worldMapped`, `gpio_pin_pullup`
writes the pull mode (2, pull-up) to word 38, which is strobe register 0
(`GPIO_PUDCLK(0)`), and not to the pull-control register at word 37; word 37
is not written at all. -/
theorem gpio_pin_pullup_pin32_writes :
    (gpio_pin_pullup 32 .GPIO_PUD_UP worldMapped).world?.map (fun w => w.trace) =
      some [Ev.wr .gpioBlk 38 2, Ev.wr .gpioBlk 39 1, Ev.wr .gpioBlk 38 0, Ev.wr .gpioBlk 39 0] ∧
    GPIO_PUD (32 / 32) = GPIO_PUDCLK 0 ∧ GPIO_PUD (32 / 32) ≠ 37 := by
  refine ⟨?_, rfl, by decide⟩
  rw [gpio_pin_pullup_mapped 32 .GPIO_PUD_UP worldMapped (by decide) (by decide)]
  rfl

/-! ## Life cycle of the GPIO mapping -/

theorem one_mod_word : (0 + 1) % WORD = 1 := by decide

theorem dec_one_mod_word : (1 + (WORD - 1)) % WORD = 0 := by decide

/-- First acquire: nothing mapped, no client, system calls succeed. -/
theorem gpio_access_init_fresh (w : World) (h0 : w.gpio = none) (hc : w.gpio_clients = 0)
    (hos : w.os.succeeds) :
    ∃ addr, gpio_access_init w = .ret () { w with
      gpio := some addr
      gpio_clients := 1
      trace := w.trace ++ [Ev.sys_open, Ev.sys_mmap .gpioBlk, Ev.sys_close] } := by
  obtain ⟨hopen, -, -⟩ := hos w.trace.length
  obtain ⟨-, hmm, -⟩ := hos (w.trace.length + 1)
  obtain ⟨addr, haddr⟩ := mapped_iff.mp hmm
  refine ⟨addr, ?_⟩
  simp [gpio_access_init, h0, hc, hopen, World.log, haddr, one_mod_word]

/-- An acquire while a client is registered ends the process at once. -/
theorem gpio_access_init_busy (w : World) (hc : 0 < w.gpio_clients) :
    gpio_access_init w = .exit w := by
  simp [gpio_access_init, hc]

/-- Release by the only client: the block is unmapped. -/
theorem gpio_access_cleanup_last (w : World) (a : Nat) (ha : w.gpio = some a)
    (hc : w.gpio_clients = 1) (hos : w.os.munmap_ok w.trace.length = true) :
    gpio_access_cleanup w = .ret () { w with
      gpio := none
      gpio_clients := 0
      trace := w.trace ++ [Ev.sys_munmap .gpioBlk] } := by
  simp [gpio_access_cleanup, ha, hc, dec_one_mod_word, hos, World.log]

/-- Release with nothing mapped: no effect. -/
theorem gpio_access_cleanup_unmapped (w : World) (h0 : w.gpio = none) :
    gpio_access_cleanup w = .ret () w := by
  simp [gpio_access_cleanup, h0]

theorem repeatProg_succ (p : Prog Unit) (n : Nat) (w : World) :
    repeatProg p (n + 1) w = Prog.bind p (fun _ => repeatProg p n) w := rfl

theorem repeatProg_zero (p : Prog Unit) (w : World) : repeatProg p 0 w = .ret () w := rfl

theorem acquire_release_apply (N : Nat) (w : World) :
    acquire_release N w =
      Prog.bind (repeatProg gpio_access_init N)
        (fun _ => repeatProg gpio_access_cleanup N) w := rfl

theorem bind_of_ret {α β : Type} {m : Prog α} {f : α → Prog β} {w w1 : World} {a : α}
    (h : m w = .ret a w1) : Prog.bind m f w = f a w1 := by
  unfold Prog.bind
  rw [h]

theorem bind_of_exit {α β : Type} {m : Prog α} {f : α → Prog β} {w w1 : World}
    (h : m w = .exit w1) : Prog.bind m f w = .exit w1 := by
  unfold Prog.bind
  rw [h]

/-- One acquire followed by one release. -/
theorem acquire_release_one (w : World) (h0 : w.gpio = none) (hc : w.gpio_clients = 0)
    (hos : w.os.succeeds) :
    acquire_release 1 w = .ret () { w with
      gpio := none
      gpio_clients := 0
      trace := w.trace ++
        [Ev.sys_open, Ev.sys_mmap .gpioBlk, Ev.sys_close, Ev.sys_munmap .gpioBlk] } := by
  obtain ⟨addr, hinit⟩ := gpio_access_init_fresh w h0 hc hos
  have hmun := (hos (w.trace ++ [Ev.sys_open, Ev.sys_mmap .gpioBlk, Ev.sys_close]).length).2.2
  have hcl := gpio_access_cleanup_last
    { w with
      gpio := some addr
      gpio_clients := 1
      trace := w.trace ++ [Ev.sys_open, Ev.sys_mmap .gpioBlk, Ev.sys_close] }
    addr rfl rfl hmun
  have r1 : repeatProg gpio_access_init 1 w = .ret () { w with
      gpio := some addr
      gpio_clients := 1
      trace := w.trace ++ [Ev.sys_open, Ev.sys_mmap .gpioBlk, Ev.sys_close] } := by
    rw [repeatProg_succ, bind_of_ret hinit, repeatProg_zero]
  have r2 : repeatProg gpio_access_cleanup 1
      { w with
        gpio := some addr
        gpio_clients := 1
        trace := w.trace ++ [Ev.sys_open, Ev.sys_mmap .gpioBlk, Ev.sys_close] } =
      .ret () { w with
        gpio := none
        gpio_clients := 0
        trace := w.trace ++ [Ev.sys_open, Ev.sys_mmap .gpioBlk, Ev.sys_close] ++
          [Ev.sys_munmap .gpioBlk] } := by
    rw [repeatProg_succ, bind_of_ret hcl, repeatProg_zero]
  rw [acquire_release_apply, bind_of_ret r1, r2]
  simp only [List.append_assoc, List.cons_append, List.nil_append]

/-- Two or more acquires in a row: the second one ends the process. -/
theorem acquire_release_many (n : Nat) (w : World) (h0 : w.gpio = none)
    (hc : w.gpio_clients = 0) (hos : w.os.succeeds) :
    ∃ addr, acquire_release (n + 2) w = .exit { w with
      gpio := some addr
      gpio_clients := 1
      trace := w.trace ++ [Ev.sys_open, Ev.sys_mmap .gpioBlk, Ev.sys_close] } := by
  obtain ⟨addr, hinit⟩ := gpio_access_init_fresh w h0 hc hos
  refine ⟨addr, ?_⟩
  have hbusy := gpio_access_init_busy
    { w with
      gpio := some addr
      gpio_clients := 1
      trace := w.trace ++ [Ev.sys_open, Ev.sys_mmap .gpioBlk, Ev.sys_close] }
    Nat.one_pos
  have r1 : repeatProg gpio_access_init (n + 1 + 1) w = .exit { w with
      gpio := some addr
      gpio_clients := 1
      trace := w.trace ++ [Ev.sys_open, Ev.sys_mmap .gpioBlk, Ev.sys_close] } := by
    rw [repeatProg_succ, bind_of_ret hinit, repeatProg_succ, bind_of_exit hbusy]
  rw [acquire_release_apply, bind_of_exit r1]

/-- C8, as the code behaves: starting from the unmapped state with client
count 0 on a system whose calls succeed, for `N = 1` the `gpio_access_init`
call and the `gpio_access_cleanup` call both return and perform exactly one
map followed by exactly one unmap; for every `N ≥ 2` the second
`gpio_access_init` call ends the process (single-client guard), after exactly
one map and no unmap, with the block still mapped and the count at 1. -/
theorem acquire_release_balance (N : Nat) (w : World) (hN : 1 ≤ N)
    (h0 : w.gpio = none) (hc : w.gpio_clients = 0) (hos : w.os.succeeds) :
    (N = 1 → ∃ w1 t, acquire_release N w = .ret () w1 ∧ w1.trace = w.trace ++ t ∧
        mapEvents t = [Ev.sys_mmap .gpioBlk, Ev.sys_munmap .gpioBlk] ∧
        w1.gpio = none ∧ w1.gpio_clients = 0) ∧
    (2 ≤ N → ∃ w1 t, acquire_release N w = .exit w1 ∧ w1.trace = w.trace ++ t ∧
        mapEvents t = [Ev.sys_mmap .gpioBlk] ∧
        w1.gpio ≠ none ∧ w1.gpio_clients = 1) := by
  constructor
  · rintro rfl
    exact ⟨_, _, acquire_release_one w h0 hc hos, rfl, rfl, rfl, rfl⟩
  · intro h2
    obtain ⟨n, rfl⟩ : ∃ n, N = n + 2 := ⟨N - 2, by omega⟩
    obtain ⟨addr, hrun⟩ := acquire_release_many n w h0 hc hos
    exact ⟨_, _, hrun, rfl, rfl, by simp, rfl⟩

theorem okOS_succeeds : okOS.succeeds := by
  intro n
  simp [okOS]

/-- Witness for the amended C8: `N = 1` and `N = 2` in `world0`. -/
theorem acquire_release_balance_witness :
    (∃ w1 t, acquire_release 1 world0 = .ret () w1 ∧ w1.trace = world0.trace ++ t ∧
        mapEvents t = [Ev.sys_mmap .gpioBlk, Ev.sys_munmap .gpioBlk] ∧
        w1.gpio = none ∧ w1.gpio_clients = 0) ∧
    (∃ w1 t, acquire_release 2 world0 = .exit w1 ∧ w1.trace = world0.trace ++ t ∧
        mapEvents t = [Ev.sys_mmap .gpioBlk] ∧
        w1.gpio ≠ none ∧ w1.gpio_clients = 1) :=
  ⟨(acquire_release_balance 1 world0 (by decide) rfl rfl okOS_succeeds).1 rfl,
   (acquire_release_balance 2 world0 (by decide) rfl rfl okOS_succeeds).2 (by decide)⟩

/-- Counterexample to C8: for `N = 2` in `world0` (nothing mapped, count 0,
every system call succeeding) the calls do not all complete: the run ends in
`exit(1)`, having performed one map and no unmap. -/
theorem acquire_release_two_counterexample :
    (acquire_release 2 world0).world? = none ∧
    (acquire_release 2 world0).exitWorld?.map (fun w => mapEvents w.trace) =
      some [Ev.sys_mmap .gpioBlk] := by
  constructor <;> rfl

/-- C9: `gpio_access_init` (respectively `spi_access_init`) called while its
client count is greater than 0 ends in `exit(1)` in the very state it was
called in: no map, no register access (the trace is unchanged) and no change
to the counts or the mapped pointers. -/
theorem init_rejects_second_client (w : World) :
    (0 < w.gpio_clients → gpio_access_init w = .exit w) ∧
    (0 < w.spi0_clients → spi_access_init w = .exit w) := by
  constructor
  · exact gpio_access_init_busy w
  · intro hc
    simp [spi_access_init, hc]

/-- Witness for C9: both counts are 1 in `worldMapped`. -/
theorem init_rejects_second_client_witness :
    gpio_access_init worldMapped = .exit worldMapped ∧
    spi_access_init worldMapped = .exit worldMapped :=
  ⟨(init_rejects_second_client worldMapped).1 (by decide),
   (init_rejects_second_client worldMapped).2 (by decide)⟩

/-- What one life-cycle call does in a state of the life cycle. -/
theorem lifecycle_step (c : GpioCall) (w w1 : World) (hinv : LifeInv w)
    (hstep : (c.run w).last? = some w1) :
    (∀ r, c.run w = .ret r w1 → LifeInv w1) ∧
    (c = .cleanup → w1.gpio_clients ≤ w.gpio_clients) ∧
    (∀ t, w1.trace = w.trace ++ t → Ev.sys_munmap .gpioBlk ∈ t →
      c = .cleanup ∧ w.gpio_clients = 1 ∧ w1.gpio_clients = 0) := by
  rcases hinv with ⟨h0, hc⟩ | ⟨h1, hc⟩
  · cases c with
    | init =>
      by_cases hopen : w.os.open_ok w.trace.length = true
      · cases hmm : w.os.mmap_res (w.trace.length + 1) with
        | none =>
          simp [GpioCall.run, gpio_access_init, h0, hc, hopen, hmm, World.log, Res.last?] at hstep
          subst hstep
          refine ⟨?_, by simp, ?_⟩
          · intro r hr
            simp [GpioCall.run, gpio_access_init, h0, hc, hopen, hmm, World.log] at hr
          · intro t ht hmem
            simp at ht
            subst ht
            simp at hmem
        | some addr =>
          simp [GpioCall.run, gpio_access_init, h0, hc, hopen, hmm, World.log, Res.last?] at hstep
          subst hstep
          refine ⟨?_, by simp, ?_⟩
          · intro r _
            right
            simp [one_mod_word]
          · intro t ht hmem
            simp at ht
            subst ht
            simp at hmem
      · simp [GpioCall.run, gpio_access_init, h0, hc, hopen, World.log, Res.last?] at hstep
        subst hstep
        refine ⟨?_, by simp, ?_⟩
        · intro r hr
          simp [GpioCall.run, gpio_access_init, h0, hc, hopen, World.log] at hr
        · intro t ht hmem
          simp at ht
          subst ht
          simp at hmem
    | cleanup =>
      simp [GpioCall.run, gpio_access_cleanup, h0, Res.last?] at hstep
      subst hstep
      refine ⟨fun _ _ => Or.inl ⟨h0, hc⟩, fun _ => le_refl _, ?_⟩
      intro t ht hmem
      have : t = [] := by simpa using ht
      subst this
      simp at hmem
  · obtain ⟨a, ha⟩ := mapped_iff.mp h1
    cases c with
    | init =>
      have hpos : 0 < w.gpio_clients := by omega
      simp [GpioCall.run, gpio_access_init_busy w hpos, Res.last?] at hstep
      subst hstep
      refine ⟨?_, by simp, ?_⟩
      · intro r hr
        simp [GpioCall.run, gpio_access_init_busy w hpos] at hr
      · intro t ht hmem
        have : t = [] := by simpa using ht
        subst this
        simp at hmem
    | cleanup =>
      by_cases hmun : w.os.munmap_ok w.trace.length = true
      · simp [GpioCall.run, gpio_access_cleanup, ha, hc, dec_one_mod_word, hmun, World.log,
          Res.last?] at hstep
        subst hstep
        refine ⟨fun _ _ => Or.inl ⟨rfl, rfl⟩, by simp, ?_⟩
        intro t _ _
        exact ⟨rfl, hc, rfl⟩
      · simp [GpioCall.run, gpio_access_cleanup, ha, hc, dec_one_mod_word, hmun, World.log,
          Res.last?] at hstep
        subst hstep
        refine ⟨?_, by simp, ?_⟩
        · intro r hr
          simp [GpioCall.run, gpio_access_cleanup, ha, hc, dec_one_mod_word, hmun, World.log] at hr
        · intro t _ _
          exact ⟨rfl, hc, rfl⟩

theorem runCalls_cons (c : GpioCall) (cs : List GpioCall) (w : World) :
    runCalls (c :: cs) w = Prog.bind c.run (fun _ => runCalls cs) w := rfl

/-- Every state reached by returning calls is a state of the life cycle. -/
theorem runCalls_inv (calls : List GpioCall) :
    ∀ (w0 w : World), LifeInv w0 → runCalls calls w0 = .ret () w → LifeInv w := by
  induction calls with
  | nil =>
    intro w0 w hinv hrun
    simp [runCalls, pure_apply] at hrun
    subst hrun
    exact hinv
  | cons c cs ih =>
    intro w0 w hinv hrun
    rw [runCalls_cons, Prog.bind] at hrun
    cases hc : c.run w0 with
    | ret r w1 =>
      rw [hc] at hrun
      have hstep : (c.run w0).last? = some w1 := by rw [hc]; rfl
      exact ih w1 w ((lifecycle_step c w0 w1 hinv hstep).1 r hc) hrun
    | exit w1 => rw [hc] at hrun; simp at hrun
    | fault w1 => rw [hc] at hrun; simp at hrun
    | hang => rw [hc] at hrun; simp at hrun

/-- C10: in every state `w` reached from an initial state (unmapped, count 0)
by a sequence of `gpio_access_init` and `gpio_access_cleanup` calls that all
return, the block is mapped exactly when the count is greater than 0 and the
count is 0 or 1; whatever call comes next, a cleanup never raises the count
(no wrap below zero) and an unmap happens only in a cleanup that takes the
count from 1 to 0; a cleanup at count 0 returns in the same state, performing
no unmap. -/
theorem gpio_lifecycle_invariant (calls : List GpioCall) (w0 w : World)
    (h0 : w0.gpio = none) (hc : w0.gpio_clients = 0)
    (hrun : runCalls calls w0 = .ret () w) :
    ((w.gpio ≠ none ↔ 0 < w.gpio_clients) ∧ w.gpio_clients ≤ 1) ∧
    (∀ (c : GpioCall) (w1 : World), (c.run w).last? = some w1 →
      (c = .cleanup → w1.gpio_clients ≤ w.gpio_clients) ∧
      (∀ t, w1.trace = w.trace ++ t → Ev.sys_munmap .gpioBlk ∈ t →
        c = .cleanup ∧ w.gpio_clients = 1 ∧ w1.gpio_clients = 0)) ∧
    (w.gpio_clients = 0 → gpio_access_cleanup w = .ret () w) := by
  have hinv : LifeInv w := runCalls_inv calls w0 w (Or.inl ⟨h0, hc⟩) hrun
  refine ⟨?_, ?_, ?_⟩
  · rcases hinv with ⟨h, hcnt⟩ | ⟨h, hcnt⟩
    · simp [h, hcnt]
    · simp [h, hcnt]
  · intro c w1 hstep
    exact (lifecycle_step c w w1 hinv hstep).2
  · intro hz
    rcases hinv with ⟨h, _⟩ | ⟨_, hcnt⟩
    · exact gpio_access_cleanup_unmapped w h
    · omega

theorem runCalls_worldCycled :
    runCalls [.init, .cleanup, .cleanup, .init] world0 = .ret () worldCycled := by
  have e1 : (0 + 1) % WORD = 1 := by decide
  have e2 : (1 + (WORD - 1)) % WORD = 0 := by decide
  simp [runCalls, bind_apply, Prog.bind, GpioCall.run, gpio_access_init, gpio_access_cleanup,
    world0, okOS, World.log, worldCycled, pure_apply, e1, e2]

/-- Witness for C10: the state `worldCycled`, reached from `world0` by the
calls init, cleanup, cleanup, init. -/
theorem gpio_lifecycle_invariant_witness :
    ((worldCycled.gpio ≠ none ↔ 0 < worldCycled.gpio_clients) ∧ worldCycled.gpio_clients ≤ 1) ∧
    (∀ (c : GpioCall) (w1 : World), (c.run worldCycled).last? = some w1 →
      (c = .cleanup → w1.gpio_clients ≤ worldCycled.gpio_clients) ∧
      (∀ t, w1.trace = worldCycled.trace ++ t → Ev.sys_munmap .gpioBlk ∈ t →
        c = .cleanup ∧ worldCycled.gpio_clients = 1 ∧ w1.gpio_clients = 0)) ∧
    (worldCycled.gpio_clients = 0 → gpio_access_cleanup worldCycled = .ret () worldCycled) :=
  gpio_lifecycle_invariant [.init, .cleanup, .cleanup, .init] world0 worldCycled rfl rfl
    runCalls_worldCycled

/-! ## Rejected calls -/

/-- C11: each of `gpio_function_sel`, `gpio_pin_write`, `gpio_pin_pullup` and
`gpio_pin_read` returns in exactly the state it was called in when the pin
index is greater than 53 or the GPIO block is not mapped, and so does
`gpio_pin_read` when its output location is null: the trace gains no register
read or write, every register and both client counts are unchanged, and
`gpio_pin_read` leaves the output location as it was. -/
theorem gpio_precondition_noop (pin : Nat) (m : gpio_sel_mode_t) (L : gpio_pin_val_t)
    (v : gpio_pud_val_t) (val : Option gpio_pin_val_t) (w : World) :
    ((53 < pin ∨ w.gpio = none) →
      gpio_function_sel pin m w = .ret () w ∧ gpio_pin_write pin L w = .ret () w ∧
      gpio_pin_pullup pin v w = .ret () w) ∧
    ((53 < pin ∨ w.gpio = none ∨ val = none) → gpio_pin_read pin val w = .ret val w) := by
  constructor
  · intro h
    by_cases hp : pin > 53
    · simp [gpio_function_sel, gpio_pin_write, gpio_pin_pullup, hp]
    · have hg : w.gpio = none := by
        rcases h with h | h
        · exact absurd h hp
        · exact h
      simp [gpio_function_sel, gpio_pin_write, gpio_pin_pullup, hp, hg]
  · intro h
    by_cases hp : pin > 53
    · simp [gpio_pin_read, hp]
    · by_cases hv : val = none
      · simp [gpio_pin_read, hp, hv]
      · have hg : w.gpio = none := by
          rcases h with h | h | h
          · exact absurd h hp
          · exact h
          · exact absurd h hv
        simp [gpio_pin_read, hp, hg]

/-- Witness for C11: pin 54 on the mapped block of `worldMapped`, and a null
output location for pin 3. -/
theorem gpio_precondition_noop_witness :
    (gpio_function_sel 54 .GPIO_OUTPUT worldMapped = .ret () worldMapped ∧
      gpio_pin_write 54 .GPIO_HIGH worldMapped = .ret () worldMapped ∧
      gpio_pin_pullup 54 .GPIO_PUD_UP worldMapped = .ret () worldMapped) ∧
    gpio_pin_read 3 none worldMapped = .ret none worldMapped :=
  ⟨(gpio_precondition_noop 54 .GPIO_OUTPUT .GPIO_HIGH .GPIO_PUD_UP none worldMapped).1
      (Or.inl (by decide)),
   (gpio_precondition_noop 3 .GPIO_OUTPUT .GPIO_HIGH .GPIO_PUD_UP none worldMapped).2
      (Or.inr (Or.inr rfl))⟩

/-! ## Effects of pin write and pin read -/

/-- C13: for every pin `p ≤ 53` and level `L`, `gpio_pin_write p L` on a mapped
block returns having appended to the trace exactly one event, the write of
`1 << (p mod 32)` to set register `p / 32` (word `7 + p / 32`) when `L` is
high or to clear register `p / 32` (word `10 + p / 32`) when `L` is low: no
register is read, and every other register, the level registers among them,
keeps its content. -/
theorem gpio_pin_write_single_write (p : Nat) (L : gpio_pin_val_t) (w : World)
    (hp : p ≤ 53) (hmap : w.gpio ≠ none) :
    ∃ w1, gpio_pin_write p L w = .ret () w1 ∧
      w1.trace = w.trace ++
        [Ev.wr .gpioBlk (if L = .GPIO_HIGH then GPIO_SET (p / 32) else GPIO_CLR (p / 32))
          (1 <<< (p % 32))] ∧
      (∀ i, i ≠ (if L = .GPIO_HIGH then GPIO_SET (p / 32) else GPIO_CLR (p / 32)) →
        w1.gpio_mem i = w.gpio_mem i) ∧
      w1.gpio_mem (GPIO_LEV 0) = w.gpio_mem (GPIO_LEV 0) ∧
      w1.gpio_mem (GPIO_LEV 1) = w.gpio_mem (GPIO_LEV 1) := by
  have h32 : p / 32 ≤ 1 := by omega
  refine ⟨_, gpio_pin_write_mapped p L w hp hmap, ?_, ?_, ?_, ?_⟩
  · cases L <;> simp [GPIO_SET, GPIO_CLR, Nat.one_shiftLeft]
  · intro i hi
    cases L <;> simp_all [GPIO_SET, GPIO_CLR]
  · cases L <;> simp [GPIO_LEV] <;> omega
  · cases L <;> simp [GPIO_LEV] <;> omega

/-- Witness for C13: pin 31 written high in `worldMapped`: the single write is
`0x80000000` to word 7. -/
theorem gpio_pin_write_single_write_witness :
    ∃ w1, gpio_pin_write 31 .GPIO_HIGH worldMapped = .ret () w1 ∧
      w1.trace = worldMapped.trace ++ [Ev.wr .gpioBlk 7 0x80000000] ∧
      (∀ i, i ≠ 7 → w1.gpio_mem i = worldMapped.gpio_mem i) ∧
      w1.gpio_mem 13 = worldMapped.gpio_mem 13 ∧
      w1.gpio_mem 14 = worldMapped.gpio_mem 14 :=
  gpio_pin_write_single_write 31 .GPIO_HIGH worldMapped (by decide) (by decide)

/-- C14: for every pin `p ≤ 53`, a non-null output location and a mapped block,
`gpio_pin_read p` returns having stored high when bit `p mod 32` of level
register `p / 32` (word `13 + p / 32`) is 1 and low otherwise; the only event
is the read of that register, and no register content changes. -/
theorem gpio_pin_read_level (p : Nat) (c : gpio_pin_val_t) (w : World)
    (hp : p ≤ 53) (hmap : w.gpio ≠ none) :
    ∃ w1, gpio_pin_read p (some c) w =
        .ret (some (if (w.gpio_mem (GPIO_LEV (p / 32))).testBit (p % 32) = true
                    then gpio_pin_val_t.GPIO_HIGH else gpio_pin_val_t.GPIO_LOW)) w1 ∧
      w1.trace = w.trace ++
        [Ev.rd .gpioBlk (GPIO_LEV (p / 32)) (w.gpio_mem (GPIO_LEV (p / 32)))] ∧
      w1.gpio_mem = w.gpio_mem :=
  ⟨_, gpio_pin_read_mapped p c w hp hmap, rfl, rfl⟩

/-- Witness for C14: pin 40 read in `worldMapped`, whose level registers are zero. -/
theorem gpio_pin_read_level_witness :
    ∃ w1, gpio_pin_read 40 (some .GPIO_HIGH) worldMapped =
        .ret (some gpio_pin_val_t.GPIO_LOW) w1 ∧
      w1.trace = worldMapped.trace ++ [Ev.rd .gpioBlk 14 0] ∧
      w1.gpio_mem = worldMapped.gpio_mem :=
  gpio_pin_read_level 40 .GPIO_HIGH worldMapped (by decide) (by decide)

/-! ## Frame of a function selection -/

/-- The outcome of `gpio_function_sel`, with the state spelled out field by field. -/
theorem gpio_function_sel_mk (p : Nat) (m : gpio_sel_mode_t) (hp : p ≤ 53)
    (a gc : Nat) (sp : Option Nat) (sc : Nat) (gm sm st ff : Nat → Nat) (os : OS)
    (tr : List Ev) :
    gpio_function_sel p m ⟨some a, gc, sp, sc, gm, sm, st, ff, os, tr⟩ =
      .ret () ⟨some a, gc, sp, sc, selMem p m.val gm, sm, st, ff, os, tr ++ selTrace p m gm⟩ := by
  rw [gpio_function_sel_mapped p m _ hp (by simp)]
  rfl

/-- Bits outside the field keep their value. -/
theorem selWord_testBit (old m pos i : Nat) (hm : m < 8) (hi : i < 32)
    (hout : i < pos ∨ pos + 3 ≤ i) :
    (selWord old m pos).testBit i = old.testBit i := by
  unfold selWord not32 WORD
  have h7 : (7 : Nat) = 2 ^ 3 - 1 := by norm_num
  rw [h7]
  simp only [Nat.testBit_and, Nat.testBit_shiftRight, Nat.testBit_mod_two_pow, Nat.testBit_or,
    Nat.testBit_xor, Nat.testBit_shiftLeft, Nat.testBit_two_pow_sub_one]
  rcases hout with h | h
  · have h1 : ¬ i ≥ pos := by omega
    simp [hi, h1]
  · have h1 : i ≥ pos := by omega
    have h2 : ¬ i - pos < 3 := by omega
    simp [hi, h1, h2, testBit_lt_eight hm (show 3 ≤ i - pos by omega)]

theorem fselField_testBit (x pos j : Nat) :
    (fselField x pos).testBit j = (x.testBit (pos + j) && decide (j < 3)) := by
  unfold fselField
  have h7 : (7 : Nat) = 2 ^ 3 - 1 := by norm_num
  rw [h7, Nat.testBit_and, Nat.testBit_shiftRight, Nat.testBit_two_pow_sub_one]

/-- A field elsewhere in the word keeps its value. -/
theorem fselField_selWord_other (old m a b : Nat) (hm : m < 8) (ha : a ≤ 9) (hab : a ≠ b) :
    fselField (selWord old m (b * 3)) (a * 3) = fselField old (a * 3) := by
  apply Nat.eq_of_testBit_eq
  intro j
  rw [fselField_testBit, fselField_testBit]
  by_cases hj : j < 3
  · rw [selWord_testBit old m (b * 3) (a * 3 + j) hm (by omega) (by omega)]
  · simp [hj]

theorem fselField_selMem_self (p m : Nat) (mem : Nat → Nat) (hm : m < 8) :
    fselField (selMem p m mem (p / 10)) ((p % 10) * 3) = m := by
  have hpos : (p % 10) * 3 + 3 ≤ 32 := by omega
  simp only [selMem, if_true]
  exact fselField_set _ _ _ hm hpos

theorem fselField_selMem_other (p q m : Nat) (mem : Nat → Nat) (hm : m < 8) (hq : q ≠ p) :
    fselField (selMem p m mem (q / 10)) ((q % 10) * 3) =
      fselField (mem (q / 10)) ((q % 10) * 3) := by
  by_cases hreg : q / 10 = p / 10
  · have hne : q % 10 ≠ p % 10 := by omega
    simp only [selMem, hreg, if_true]
    exact fselField_selWord_other _ _ _ _ hm (by omega) hne
  · simp [selMem, hreg]

/-- C15: for every pin `p ≤ 53` and mode `m`, `gpio_function_sel p m` on a
mapped block returns having changed nothing but the 3-bit field of pin `p`:
every bit of the 32-bit function-select register `p / 10` outside positions
`(p mod 10) * 3 .. (p mod 10) * 3 + 2` (the other pins' fields and the two top
bits) keeps its value, every other register of the block keeps its content,
and so the field of every other pin is as before. -/
theorem gpio_function_sel_frame (p : Nat) (m : gpio_sel_mode_t) (w : World)
    (hp : p ≤ 53) (hmap : w.gpio ≠ none) :
    ∃ w1, gpio_function_sel p m w = .ret () w1 ∧
      (∀ i, i < 32 → (i < (p % 10) * 3 ∨ (p % 10) * 3 + 3 ≤ i) →
        (w1.gpio_mem (p / 10)).testBit i = (w.gpio_mem (p / 10)).testBit i) ∧
      (∀ j, j ≠ p / 10 → w1.gpio_mem j = w.gpio_mem j) ∧
      (∀ q, q ≠ p → q ≤ 53 →
        fselField (w1.gpio_mem (q / 10)) ((q % 10) * 3) =
          fselField (w.gpio_mem (q / 10)) ((q % 10) * 3)) := by
  refine ⟨_, gpio_function_sel_mapped p m w hp hmap, ?_, ?_, ?_⟩
  · intro i hi hout
    simp only [if_true]
    exact selWord_testBit _ _ _ _ (mode_val_lt m) hi hout
  · intro j hj
    simp [hj]
  · intro q hq _
    exact fselField_selMem_other p q m.val w.gpio_mem (mode_val_lt m) hq

/-- Witness for C15: pin 17 set to `GPIO_ALT3` in `worldMapped`. -/
theorem gpio_function_sel_frame_witness :
    ∃ w1, gpio_function_sel 17 .GPIO_ALT3 worldMapped = .ret () w1 ∧
      (∀ i, i < 32 → (i < (17 % 10) * 3 ∨ (17 % 10) * 3 + 3 ≤ i) →
        (w1.gpio_mem (17 / 10)).testBit i = (worldMapped.gpio_mem (17 / 10)).testBit i) ∧
      (∀ j, j ≠ 17 / 10 → w1.gpio_mem j = worldMapped.gpio_mem j) ∧
      (∀ q, q ≠ 17 → q ≤ 53 →
        fselField (w1.gpio_mem (q / 10)) ((q % 10) * 3) =
          fselField (worldMapped.gpio_mem (q / 10)) ((q % 10) * 3)) :=
  gpio_function_sel_frame 17 .GPIO_ALT3 worldMapped (by decide) (by decide)

/-! ## SPI initialization -/

/-- The outcome of `setup_spi0`, with the state spelled out field by field. -/
theorem setup_spi0_mk (d : Nat) (g : Option Nat) (gc a sc : Nat)
    (gm sm st ff : Nat → Nat) (os : OS) (tr : List Ev) :
    setup_spi0 d ⟨g, gc, some a, sc, gm, sm, st, ff, os, tr⟩ =
      .ret () ⟨g, gc, some a, sc, gm,
        fun i => if i = SPI0_CNTLSTAT then SPI0_CS_CLRALL % WORD
          else if i = SPI0_CLKSPEED then d % WORD else sm i, st, ff, os,
        tr ++ [Ev.wr .spi0Blk SPI0_CLKSPEED (d % WORD),
               Ev.wr .spi0Blk SPI0_CNTLSTAT (SPI0_CS_CLRALL % WORD)]⟩ := by
  simp only [setup_spi0, bind_apply, Prog.bind, spi0_wr_mk]
  simp

/-- A first `spi_access_init`: nothing mapped, no clients, system calls succeed. -/
theorem spi_access_init_fresh (w : World) (hg : w.gpio = none) (hgc : w.gpio_clients = 0)
    (hs : w.spi0 = none) (hsc : w.spi0_clients = 0) (hos : w.os.succeeds) :
    ∃ a1 a2, spi_access_init w = .ret () { w with
      gpio := some a1
      gpio_clients := 1
      spi0 := some a2
      spi0_clients := 1
      gpio_mem := alt0Mem w.gpio_mem
      spi0_mem := fun i => if i = SPI0_CNTLSTAT then SPI0_CS_CLRALL
        else if i = SPI0_CLKSPEED then SPI_SPEED else w.spi0_mem i
      trace := w.trace ++ spiInitTrace w.gpio_mem } := by
  obtain ⟨g, gc, sp, sc, gm, sm, st, ff, os, tr⟩ := w
  simp only at hg hgc hs hsc hos
  subst hg hgc hs hsc
  have ho : ∀ n, os.open_ok n = true := fun n => (hos n).1
  obtain ⟨f, hm⟩ : ∃ f : Nat → Nat, ∀ n, os.mmap_res n = some (f n) := by
    refine ⟨fun n => (os.mmap_res n).getD 0, fun n => ?_⟩
    have := (hos n).2.1
    cases h : os.mmap_res n with
    | none => exact absurd h this
    | some a => simp [h]
  refine ⟨f (tr ++ [Ev.sys_open]).length,
    f (tr ++ [Ev.sys_open] ++ [Ev.sys_mmap .gpioBlk] ++ [Ev.sys_close] ++
      [Ev.sys_open]).length, ?_⟩
  have e1 : (0 + 1) % WORD = 1 := by decide
  have e2 : SPI0_CS_CLRALL % WORD = SPI0_CS_CLRALL := by decide
  have e3 : SPI_SPEED % WORD = SPI_SPEED := by decide
  simp only [spi_access_init, gpio_access_init, bind_apply, Prog.bind, ho, hm, World.log,
    Nat.lt_irrefl, if_false, gt_iff_lt, Bool.true_eq_false]
  simp only [gpio_function_sel_mk 7 .GPIO_ALT0 (by decide),
    gpio_function_sel_mk 8 .GPIO_ALT0 (by decide), gpio_function_sel_mk 9 .GPIO_ALT0 (by decide),
    gpio_function_sel_mk 10 .GPIO_ALT0 (by decide),
    gpio_function_sel_mk 11 .GPIO_ALT0 (by decide), setup_spi0_mk, e1, e2, e3]
  simp only [alt0Mem, spiInitTrace, List.append_assoc, List.cons_append, List.nil_append]

theorem writesTo_spi0_selTrace (off p : Nat) (m : gpio_sel_mode_t) (mem : Nat → Nat) :
    writesTo .spi0Blk off (selTrace p m mem) = [] := by
  unfold selTrace
  split <;> simp [writesTo]

theorem cntlstat_writes_spiInitTrace (gm : Nat → Nat) :
    writesTo .spi0Blk SPI0_CNTLSTAT (spiInitTrace gm) = [SPI0_CS_CLRALL] := by
  simp [spiInitTrace, writesTo_append, writesTo_spi0_selTrace, writesTo, SPI0_CNTLSTAT,
    SPI0_CLKSPEED]

theorem alt0_val_lt : gpio_sel_mode_t.GPIO_ALT0.val < 8 := by decide

/-- The fields of pins 7 to 11 after the five selections. -/
theorem alt0Mem_set (gm : Nat → Nat) (q : Nat) (h7 : 7 ≤ q) (h11 : q ≤ 11) :
    fselField (alt0Mem gm (q / 10)) ((q % 10) * 3) = gpio_sel_mode_t.GPIO_ALT0.val := by
  unfold alt0Mem
  have hq : q = 7 ∨ q = 8 ∨ q = 9 ∨ q = 10 ∨ q = 11 := by omega
  rcases hq with rfl | rfl | rfl | rfl | rfl
  · rw [fselField_selMem_other 11 7 _ _ alt0_val_lt (by decide),
      fselField_selMem_other 10 7 _ _ alt0_val_lt (by decide),
      fselField_selMem_other 9 7 _ _ alt0_val_lt (by decide),
      fselField_selMem_other 8 7 _ _ alt0_val_lt (by decide),
      fselField_selMem_self 7 _ _ alt0_val_lt]
  · rw [fselField_selMem_other 11 8 _ _ alt0_val_lt (by decide),
      fselField_selMem_other 10 8 _ _ alt0_val_lt (by decide),
      fselField_selMem_other 9 8 _ _ alt0_val_lt (by decide),
      fselField_selMem_self 8 _ _ alt0_val_lt]
  · rw [fselField_selMem_other 11 9 _ _ alt0_val_lt (by decide),
      fselField_selMem_other 10 9 _ _ alt0_val_lt (by decide),
      fselField_selMem_self 9 _ _ alt0_val_lt]
  · rw [fselField_selMem_other 11 10 _ _ alt0_val_lt (by decide),
      fselField_selMem_self 10 _ _ alt0_val_lt]
  · rw [fselField_selMem_self 11 _ _ alt0_val_lt]

/-- The field of every other pin after the five selections. -/
theorem alt0Mem_other (gm : Nat → Nat) (q : Nat) (hq : q < 7 ∨ 11 < q) :
    fselField (alt0Mem gm (q / 10)) ((q % 10) * 3) = fselField (gm (q / 10)) ((q % 10) * 3) := by
  unfold alt0Mem
  rw [fselField_selMem_other 11 q _ _ alt0_val_lt (by omega),
    fselField_selMem_other 10 q _ _ alt0_val_lt (by omega),
    fselField_selMem_other 9 q _ _ alt0_val_lt (by omega),
    fselField_selMem_other 8 q _ _ alt0_val_lt (by omega),
    fselField_selMem_other 7 q _ _ alt0_val_lt (by omega)]

/-- C12: starting from the state where neither block is mapped and both
client counts are 0, on a system whose calls succeed, `spi_access_init`
returns in a state where the function-select fields of pins 7, 8, 9, 10 and 11
hold `GPIO_ALT0` (0b100) and the field of every other pin is as before, the
SPI0 clock-divisor register holds 256, the only and so the last value written
to the control/status register is `0x00010030` (clear both FIFOs, done), both
blocks are mapped and both client counts are 1. -/
theorem spi_access_init_configures (w : World) (hg : w.gpio = none)
    (hgc : w.gpio_clients = 0) (hs : w.spi0 = none) (hsc : w.spi0_clients = 0)
    (hos : w.os.succeeds) :
    ∃ w1 t, spi_access_init w = .ret () w1 ∧ w1.trace = w.trace ++ t ∧
      (∀ q, 7 ≤ q → q ≤ 11 → fselField (w1.gpio_mem (q / 10)) ((q % 10) * 3) = 0b100) ∧
      (∀ q, q ≤ 53 → (q < 7 ∨ 11 < q) →
        fselField (w1.gpio_mem (q / 10)) ((q % 10) * 3) =
          fselField (w.gpio_mem (q / 10)) ((q % 10) * 3)) ∧
      w1.spi0_mem SPI0_CLKSPEED = 256 ∧
      writesTo .spi0Blk SPI0_CNTLSTAT t = [0x00010030] ∧
      w1.spi0_mem SPI0_CNTLSTAT = 0x00010030 ∧
      w1.gpio ≠ none ∧ w1.spi0 ≠ none ∧
      w1.gpio_clients = 1 ∧ w1.spi0_clients = 1 := by
  obtain ⟨a1, a2, hrun⟩ := spi_access_init_fresh w hg hgc hs hsc hos
  refine ⟨_, _, hrun, rfl, ?_, ?_, ?_, ?_, ?_, ?_, ?_, rfl, rfl⟩
  · intro q h7 h11
    exact alt0Mem_set w.gpio_mem q h7 h11
  · intro q _ hq
    exact alt0Mem_other w.gpio_mem q hq
  · rfl
  · rw [cntlstat_writes_spiInitTrace]
    rfl
  · rfl
  · simp
  · simp

/-- Witness for C12: `spi_access_init` in `world0`. -/
theorem spi_access_init_configures_witness :
    ∃ w1 t, spi_access_init world0 = .ret () w1 ∧ w1.trace = world0.trace ++ t ∧
      (∀ q, 7 ≤ q → q ≤ 11 → fselField (w1.gpio_mem (q / 10)) ((q % 10) * 3) = 0b100) ∧
      (∀ q, q ≤ 53 → (q < 7 ∨ 11 < q) →
        fselField (w1.gpio_mem (q / 10)) ((q % 10) * 3) =
          fselField (world0.gpio_mem (q / 10)) ((q % 10) * 3)) ∧
      w1.spi0_mem SPI0_CLKSPEED = 256 ∧
      writesTo .spi0Blk SPI0_CNTLSTAT t = [0x00010030] ∧
      w1.spi0_mem SPI0_CNTLSTAT = 0x00010030 ∧
      w1.gpio ≠ none ∧ w1.spi0 ≠ none ∧
      w1.gpio_clients = 1 ∧ w1.spi0_clients = 1 :=
  spi_access_init_configures world0 rfl rfl rfl rfl okOS_succeeds

/-! ## The ADC exchange -/

theorem accessesTo_append (b : Blk) (off : Nat) (t1 t2 : List Ev) :
    accessesTo b off (t1 ++ t2) = accessesTo b off t1 ++ accessesTo b off t2 := by
  simp [accessesTo]

theorem fifo_accesses_statusReads (s : Nat → Nat) (k : Nat) :
    accessesTo .spi0Blk SPI0_FIFO (statusReads s k) = [] := by
  simp [accessesTo, statusReads, Ev.touches, SPI0_FIFO, SPI0_CNTLSTAT]

theorem fifo_accesses_xferTrace (cs b1 b2 : Nat) (status fifo : Nat → Nat) (k1 k2 k3 : Nat) :
    accessesTo .spi0Blk SPI0_FIFO (xferTrace cs b1 b2 status fifo k1 k2 k3) =
      [Ev.wr .spi0Blk SPI0_FIFO b1, Ev.rd .spi0Blk SPI0_FIFO (fifo 0 % WORD),
       Ev.wr .spi0Blk SPI0_FIFO b2, Ev.rd .spi0Blk SPI0_FIFO (fifo 1 % WORD)] := by
  simp only [xferTrace, accessesTo_append, fifo_accesses_statusReads]
  simp [accessesTo, Ev.touches, SPI0_FIFO, SPI0_CNTLSTAT]

/-- An exchange ends with the write of the done flag. -/
theorem xferTrace_ends (cs b1 b2 : Nat) (status fifo : Nat → Nat) (k1 k2 k3 : Nat) :
    ∃ t0, xferTrace cs b1 b2 status fifo k1 k2 k3 =
      t0 ++ [Ev.wr .spi0Blk SPI0_CNTLSTAT SPI0_CS_DONE] :=
  ⟨[Ev.wr .spi0Blk SPI0_CNTLSTAT cs, Ev.wr .spi0Blk SPI0_FIFO b1] ++
    (statusReads status k1 ++
    ([Ev.rd .spi0Blk SPI0_FIFO (fifo 0 % WORD), Ev.wr .spi0Blk SPI0_FIFO b2] ++
    (statusReads (fun n => status (n + (k1 + 1))) k2 ++
    ([Ev.rd .spi0Blk SPI0_FIFO (fifo 1 % WORD)] ++
    statusReads (fun n => status (n + (k2 + 1) + (k1 + 1))) k3)))),
   by simp [xferTrace]⟩

theorem adcCmd_eq (c : Int) (hc : c = 0 ∨ c = 1) : adcCmd c = 0x68 ||| (c.toNat <<< 4) := by
  rcases hc with rfl | rfl <;> decide

/-- C16: for every channel `c` in {0, 1}, on a mapped SPI0 block, in every run
in which the three waits end, `read_adc c` returns and the values it writes to
the FIFO register are exactly two, in this order: the command byte
`0x68 | (c << 4)` and then 0; the accesses to the FIFO register are write,
read, write, read, so each write is followed by exactly one read; and the
last event of the call is the write of exactly the done flag (`0x00010000`)
to the control/status register. -/
theorem read_adc_exchange (c : Int) (w : World) (k1 k2 k3 fuel : Nat)
    (hc : c = 0 ∨ c = 1) (hmap : w.spi0 ≠ none) (hw : Waits w.spi0_status k1 k2 k3)
    (h1 : k1 < fuel) (h2 : k2 < fuel) (h3 : k3 < fuel) :
    ∃ w1 t t0 r, read_adc fuel c w = .ret r w1 ∧ w1.trace = w.trace ++ t ∧
      writesTo .spi0Blk SPI0_FIFO t = [0x68 ||| (c.toNat <<< 4), 0] ∧
      accessesTo .spi0Blk SPI0_FIFO t =
        [Ev.wr .spi0Blk SPI0_FIFO (0x68 ||| (c.toNat <<< 4)),
         Ev.rd .spi0Blk SPI0_FIFO (w.spi0_fifo 0 % WORD),
         Ev.wr .spi0Blk SPI0_FIFO 0,
         Ev.rd .spi0Blk SPI0_FIFO (w.spi0_fifo 1 % WORD)] ∧
      t = t0 ++ [Ev.wr .spi0Blk SPI0_CNTLSTAT 0x00010000] := by
  obtain ⟨a, ha⟩ := mapped_iff.mp hmap
  obtain ⟨t0, ht0⟩ := xferTrace_ends (GB_DAC_SPI0_CS ||| SPI0_CS_ACTIVATE) (adcCmd c) 0
    w.spi0_status w.spi0_fifo k1 k2 k3
  refine ⟨_, _, t0, _, read_adc_returns fuel c w a k1 k2 k3 ha hw h1 h2 h3, rfl, ?_, ?_, ?_⟩
  · rw [fifo_writes_xferTrace, adcCmd_eq c hc]
  · rw [fifo_accesses_xferTrace, adcCmd_eq c hc]
  · exact ht0

/-- Witness for C16: `read_adc(1)` in `worldMapped` sends `0x78`, then 0. -/
theorem read_adc_exchange_witness :
    ∃ w1 t t0 r, read_adc 1 1 worldMapped = .ret r w1 ∧ w1.trace = worldMapped.trace ++ t ∧
      writesTo .spi0Blk SPI0_FIFO t = [0x78, 0] ∧
      accessesTo .spi0Blk SPI0_FIFO t =
        [Ev.wr .spi0Blk SPI0_FIFO 0x78, Ev.rd .spi0Blk SPI0_FIFO 0x02,
         Ev.wr .spi0Blk SPI0_FIFO 0, Ev.rd .spi0Blk SPI0_FIFO 0x34] ∧
      t = t0 ++ [Ev.wr .spi0Blk SPI0_CNTLSTAT 0x00010000] :=
  read_adc_exchange 1 worldMapped 0 0 0 1 (Or.inr rfl) (by decide) waits_worldMapped
    (by decide) (by decide) (by decide)

/-! ## Unbounded waits -/

/-- A wait that has not seen its flag within the rounds given has not returned. -/
theorem poll_hang_mk (flag fuel : Nat) (g : Option Nat) (gc a sc : Nat)
    (gm sm st ff : Nat → Nat) (os : OS) (tr : List Ev)
    (h : ∀ i, i < fuel → (st i % WORD) &&& flag = 0) :
    poll flag fuel ⟨g, gc, some a, sc, gm, sm, st, ff, os, tr⟩ = .hang :=
  poll_hangs flag fuel _ a rfl h

/-- A wait either has not returned within the rounds given or has seen its
flag first in one of them. -/
theorem poll_cases (flag : Nat) (st : Nat → Nat) :
    ∀ fuel, (∀ i, i < fuel → (st i % WORD) &&& flag = 0) ∨ ∃ k, k < fuel ∧ FirstSet flag st k := by
  intro fuel
  induction fuel with
  | zero => exact Or.inl (fun i hi => absurd hi (Nat.not_lt_zero i))
  | succ f ih =>
    rcases ih with hclear | ⟨k, hk, hfs⟩
    · by_cases hf : (st f % WORD) &&& flag = 0
      · left
        intro i hi
        by_cases hif : i = f
        · rw [hif]; exact hf
        · exact hclear i (by omega)
      · exact Or.inr ⟨f, by omega, hclear, hf⟩
    · exact Or.inr ⟨k, by omega, hfs⟩

theorem length_statusReads (s : Nat → Nat) (k : Nat) : (statusReads s k).length = k + 1 := by
  simp [statusReads]

/-- When one of its waits never sees its flag, `write_dac` does not return,
however many rounds the waits are given. -/
theorem write_dac_hangs (fuel : Nat) (c v : Int) (w : World) (a : Nat)
    (ha : w.spi0 = some a) (hst : Stalls w.spi0_status) :
    write_dac fuel c v w = .hang := by
  obtain ⟨g, gc, sp, sc, gm, sm, st, ff, os, tr⟩ := w
  simp only at ha hst
  subst ha
  simp only [write_dac, bind_apply, Prog.bind, short_wait_apply, spi0_wr_mk]
  rcases hst with hn | ⟨k1, hw1, hn⟩ | ⟨k1, k2, hw1, hw2, hn⟩
  · rw [poll_hang_mk _ fuel _ _ _ _ _ _ _ _ _ _ (fun i _ => hn i)]
  · by_cases hk1 : k1 < fuel
    · rw [poll_mk _ k1 fuel _ _ _ _ _ _ _ _ _ _ hw1 hk1]
      simp only [spi0_rd_fifo_mk, spi0_wr_mk]
      rw [poll_hang_mk _ fuel _ _ _ _ _ _ _ _ _ _ (fun i _ => hn i)]
    · rw [poll_hang_mk _ fuel _ _ _ _ _ _ _ _ _ _ (fun i hi => hw1.1 i (by omega))]
  · by_cases hk1 : k1 < fuel
    · rw [poll_mk _ k1 fuel _ _ _ _ _ _ _ _ _ _ hw1 hk1]
      simp only [spi0_rd_fifo_mk, spi0_wr_mk]
      by_cases hk2 : k2 < fuel
      · rw [poll_mk _ k2 fuel _ _ _ _ _ _ _ _ _ _ hw2 hk2]
        simp only [spi0_rd_fifo_mk, spi0_wr_mk]
        rw [poll_hang_mk _ fuel _ _ _ _ _ _ _ _ _ _ (fun i _ => hn i)]
      · rw [poll_hang_mk _ fuel _ _ _ _ _ _ _ _ _ _ (fun i hi => hw2.1 i (by omega))]
    · rw [poll_hang_mk _ fuel _ _ _ _ _ _ _ _ _ _ (fun i hi => hw1.1 i (by omega))]

/-- When one of its waits never sees its flag, `read_adc` does not return,
however many rounds the waits are given. -/
theorem read_adc_hangs (fuel : Nat) (c : Int) (w : World) (a : Nat)
    (ha : w.spi0 = some a) (hst : Stalls w.spi0_status) :
    read_adc fuel c w = .hang := by
  obtain ⟨g, gc, sp, sc, gm, sm, st, ff, os, tr⟩ := w
  simp only at ha hst
  subst ha
  simp only [read_adc, bind_apply, Prog.bind, short_wait_apply, spi0_wr_mk]
  rcases hst with hn | ⟨k1, hw1, hn⟩ | ⟨k1, k2, hw1, hw2, hn⟩
  · rw [poll_hang_mk _ fuel _ _ _ _ _ _ _ _ _ _ (fun i _ => hn i)]
  · by_cases hk1 : k1 < fuel
    · rw [poll_mk _ k1 fuel _ _ _ _ _ _ _ _ _ _ hw1 hk1]
      simp only [spi0_rd_fifo_mk, spi0_wr_mk]
      rw [poll_hang_mk _ fuel _ _ _ _ _ _ _ _ _ _ (fun i _ => hn i)]
    · rw [poll_hang_mk _ fuel _ _ _ _ _ _ _ _ _ _ (fun i hi => hw1.1 i (by omega))]
  · by_cases hk1 : k1 < fuel
    · rw [poll_mk _ k1 fuel _ _ _ _ _ _ _ _ _ _ hw1 hk1]
      simp only [spi0_rd_fifo_mk, spi0_wr_mk]
      by_cases hk2 : k2 < fuel
      · rw [poll_mk _ k2 fuel _ _ _ _ _ _ _ _ _ _ hw2 hk2]
        simp only [spi0_rd_fifo_mk, spi0_wr_mk]
        rw [poll_hang_mk _ fuel _ _ _ _ _ _ _ _ _ _ (fun i _ => hn i)]
      · rw [poll_hang_mk _ fuel _ _ _ _ _ _ _ _ _ _ (fun i hi => hw2.1 i (by omega))]
    · rw [poll_hang_mk _ fuel _ _ _ _ _ _ _ _ _ _ (fun i hi => hw1.1 i (by omega))]

theorem cntlstat_reads_statusReads_length (s : Nat → Nat) (k : Nat) :
    (readsFrom .spi0Blk SPI0_CNTLSTAT (statusReads s k)).length = k + 1 := by
  induction k generalizing s with
  | zero => rfl
  | succ k ih =>
    rw [statusReads_succ]
    simp only [readsFrom, and_self, if_true, List.length_cons]
    rw [ih]

theorem cntlstat_reads_xferTrace_length (cs b1 b2 : Nat) (status fifo : Nat → Nat)
    (k1 k2 k3 : Nat) :
    (readsFrom .spi0Blk SPI0_CNTLSTAT (xferTrace cs b1 b2 status fifo k1 k2 k3)).length =
      (k1 + 1) + (k2 + 1) + (k3 + 1) := by
  simp only [xferTrace, readsFrom_append, List.length_append,
    cntlstat_reads_statusReads_length]
  simp [readsFrom, SPI0_FIFO, SPI0_CNTLSTAT]
  omega

theorem stalls_worldStalled : Stalls worldStalled.spi0_status := by
  left
  intro i
  show (0 % WORD) &&& SPI0_CS_RXFIFODATA = 0
  decide

/-- C17: on a mapped SPI0 block, each polling wait re-reads the
control/status register until its flag is set, with no bound on the number of
rounds: for every `k`, a wait whose flag is clear in the first `k` status
values and set in the next one returns after exactly `k + 1` status reads,
and a wait whose flag is never set has not returned after any number of
rounds. Accordingly, when the three waits of `write_dac` or `read_adc` end
after `k1 + 1`, `k2 + 1` and `k3 + 1` reads, the call returns with exactly
those status reads in its trace, each run of reads followed by the next step
of the exchange; and when one of the waits never sees its flag, the call does
not return, however many rounds are given. -/
theorem polling_waits (c v : Int) (w : World) (hmap : w.spi0 ≠ none) :
    (∀ flag k fuel, FirstSet flag w.spi0_status k → k < fuel →
      ∃ w1, poll flag fuel w = .ret () w1 ∧
        w1.trace = w.trace ++ statusReads w.spi0_status k ∧
        (statusReads w.spi0_status k).length = k + 1) ∧
    (∀ flag, NeverSet flag w.spi0_status → ∀ fuel, poll flag fuel w = .hang) ∧
    (∀ k1 k2 k3 fuel, Waits w.spi0_status k1 k2 k3 → k1 < fuel → k2 < fuel → k3 < fuel →
      ∃ w1 w2 r,
        write_dac fuel c v w = .ret () w1 ∧
        w1.trace = w.trace ++ xferTrace (GB_ADC_SPI0_CS ||| SPI0_CS_ACTIVATE) (dacByte1 c v)
          (dacByte2 v) w.spi0_status w.spi0_fifo k1 k2 k3 ∧
        read_adc fuel c w = .ret r w2 ∧
        w2.trace = w.trace ++ xferTrace (GB_DAC_SPI0_CS ||| SPI0_CS_ACTIVATE) (adcCmd c)
          0 w.spi0_status w.spi0_fifo k1 k2 k3 ∧
        (readsFrom .spi0Blk SPI0_CNTLSTAT
          (xferTrace (GB_ADC_SPI0_CS ||| SPI0_CS_ACTIVATE) (dacByte1 c v)
            (dacByte2 v) w.spi0_status w.spi0_fifo k1 k2 k3)).length =
          (k1 + 1) + (k2 + 1) + (k3 + 1)) ∧
    (Stalls w.spi0_status →
      ∀ fuel, write_dac fuel c v w = .hang ∧ read_adc fuel c w = .hang) := by
  obtain ⟨a, ha⟩ := mapped_iff.mp hmap
  refine ⟨?_, ?_, ?_, ?_⟩
  · intro flag k fuel hfs hk
    exact ⟨_, poll_returns flag k fuel w a ha hfs hk, rfl, length_statusReads _ _⟩
  · intro flag hn fuel
    exact poll_hangs flag fuel w a ha (fun i _ => hn i)
  · intro k1 k2 k3 fuel hw h1 h2 h3
    refine ⟨_, _, _, write_dac_returns fuel c v w a k1 k2 k3 ha hw h1 h2 h3, rfl,
      read_adc_returns fuel c w a k1 k2 k3 ha hw h1 h2 h3, rfl, ?_⟩
    exact cntlstat_reads_xferTrace_length _ _ _ _ _ _ _ _
  · intro hst fuel
    exact ⟨write_dac_hangs fuel c v w a ha hst, read_adc_hangs fuel c w a ha hst⟩

/-- Witness for C17: the waits of `worldMapped` end at once, those of
`worldStalled` never do. -/
theorem polling_waits_witness :
    (∃ w1 w2 r,
      write_dac 1 1 0x80 worldMapped = .ret () w1 ∧
      w1.trace = worldMapped.trace ++ xferTrace (GB_ADC_SPI0_CS ||| SPI0_CS_ACTIVATE)
        (dacByte1 1 0x80) (dacByte2 0x80) worldMapped.spi0_status worldMapped.spi0_fifo 0 0 0 ∧
      read_adc 1 1 worldMapped = .ret r w2 ∧
      w2.trace = worldMapped.trace ++ xferTrace (GB_DAC_SPI0_CS ||| SPI0_CS_ACTIVATE)
        (adcCmd 1) 0 worldMapped.spi0_status worldMapped.spi0_fifo 0 0 0 ∧
      (readsFrom .spi0Blk SPI0_CNTLSTAT
        (xferTrace (GB_ADC_SPI0_CS ||| SPI0_CS_ACTIVATE) (dacByte1 1 0x80)
          (dacByte2 0x80) worldMapped.spi0_status worldMapped.spi0_fifo 0 0 0)).length =
        (0 + 1) + (0 + 1) + (0 + 1)) ∧
    (∀ fuel, write_dac fuel 1 0x80 worldStalled = .hang ∧ read_adc fuel 1 worldStalled = .hang) :=
  ⟨(polling_waits 1 0x80 worldMapped (by decide)).2.2.1 0 0 0 1 waits_worldMapped
      (by decide) (by decide) (by decide),
   (polling_waits 1 0x80 worldStalled (by decide)).2.2.2 stalls_worldStalled⟩

/-! ## Calls on an unmapped SPI0 block -/

/-- Without a mapped SPI0 block the first register access of `write_dac` and
of `read_adc` dereferences the null pointer. -/
theorem spi_calls_unmapped_fault (fuel : Nat) (c v : Int) (w : World) (hs : w.spi0 = none) :
    write_dac fuel c v w = .fault w ∧ read_adc fuel c w = .fault w := by
  constructor
  · simp [write_dac, bind_apply, Prog.bind, short_wait_apply, spi0_wr, hs]
  · simp [read_adc, bind_apply, Prog.bind, short_wait_apply, spi0_wr, hs]

/-- C18, as the code behaves: in `world0`, where the SPI0 block is not mapped,
`write_dac(1, 0x80)` and `read_adc(0)` do not return as no-ops: neither
routine tests the block pointer, and the first register access of each, the
write to the control/status register, goes through the null pointer. -/
theorem spi_calls_unmapped_world0 :
    world0.spi0 = none ∧
    write_dac 1 1 0x80 world0 = .fault world0 ∧
    read_adc 1 0 world0 = .fault world0 ∧
    (write_dac 1 1 0x80 world0).world? = none ∧
    (read_adc 1 0 world0).world? = none := by
  have h := spi_calls_unmapped_fault 1 1 0x80 world0 rfl
  have h2 := spi_calls_unmapped_fault 1 0 0 world0 rfl
  refine ⟨rfl, h.1, h2.2, ?_, ?_⟩
  · rw [h.1]; rfl
  · rw [h2.2]; rfl

/-! ## Release of the SPI0 block -/

/-- With the SPI0 block not mapped, `spi_access_cleanup` is `gpio_access_cleanup`. -/
theorem spi_access_cleanup_of_unmapped (w : World) (hs : w.spi0 = none) :
    spi_access_cleanup w = gpio_access_cleanup w := by
  simp [spi_access_cleanup, bind_apply, Prog.bind, hs]

/-- With the SPI0 block mapped and clients left after the decrement,
`spi_access_cleanup` lowers the SPI count and goes on to `gpio_access_cleanup`. -/
theorem spi_access_cleanup_of_shared (w : World) (a : Nat) (hs : w.spi0 = some a)
    (hc : (w.spi0_clients + (WORD - 1)) % WORD ≠ 0) :
    spi_access_cleanup w = gpio_access_cleanup
      { w with spi0_clients := (w.spi0_clients + (WORD - 1)) % WORD } := by
  simp [spi_access_cleanup, bind_apply, Prog.bind, hs, hc]

/-- With the SPI0 block mapped and the count reaching 0, `spi_access_cleanup`
unmaps the SPI0 block and goes on to `gpio_access_cleanup`. -/
theorem spi_access_cleanup_of_last (w : World) (a : Nat) (hs : w.spi0 = some a)
    (hc : (w.spi0_clients + (WORD - 1)) % WORD = 0)
    (hmun : w.os.munmap_ok w.trace.length = true) :
    spi_access_cleanup w = gpio_access_cleanup
      { w with
        spi0 := none
        spi0_clients := 0
        trace := w.trace ++ [Ev.sys_munmap .spi0Blk] } := by
  obtain ⟨g, gc, sp, sc, gm, sm, st, ff, os, tr⟩ := w
  simp only at hs hc hmun
  subst hs
  unfold spi_access_cleanup
  dsimp only [bind_apply]
  refine (bind_of_ret (?_ : _ = Res.ret ()
    { gpio := g, gpio_clients := gc, spi0 := none, spi0_clients := 0, gpio_mem := gm,
      spi0_mem := sm, spi0_status := st, spi0_fifo := ff, os := os,
      trace := tr ++ [Ev.sys_munmap .spi0Blk] })).trans ?_
  · dsimp only
    rw [if_pos hc, hc]
    simp [hmun, World.log]
  · rfl

/-- With the SPI0 block mapped, the count reaching 0 and `munmap` failing,
`spi_access_cleanup` ends the process before any GPIO release. -/
theorem spi_access_cleanup_of_failed (w : World) (a : Nat) (hs : w.spi0 = some a)
    (hc : (w.spi0_clients + (WORD - 1)) % WORD = 0)
    (hmun : w.os.munmap_ok w.trace.length = false) :
    spi_access_cleanup w = .exit
      { w with
        spi0_clients := 0
        trace := w.trace ++ [Ev.sys_munmap .spi0Blk] } := by
  obtain ⟨g, gc, sp, sc, gm, sm, st, ff, os, tr⟩ := w
  simp only at hs hc hmun
  subst hs
  unfold spi_access_cleanup
  dsimp only [bind_apply]
  refine bind_of_exit ?_
  dsimp only
  rw [if_pos hc, hc]
  simp [hmun, World.log]

/-- C19, as the code behaves: `spi_access_cleanup` goes on to
`gpio_access_cleanup` on every call that a failing `munmap` of the SPI0 block
does not end, not only on the last SPI release. With the SPI0 block not
mapped it leaves the SPI0 pointer and count as they are and acts exactly as
`gpio_access_cleanup`: the GPIO mapping and count are unchanged when the GPIO
block is not mapped, while a GPIO block mapped with count 1 (a GPIO client
that called `gpio_access_init` on its own) is unmapped and its count set to 0.
With the SPI0 block mapped it lowers the SPI count, unmaps the SPI0 block when
the count reaches 0 (ending the process if that `munmap` fails), and then acts
as `gpio_access_cleanup` on the resulting state; with both blocks mapped for
one client each it unmaps SPI0, then GPIO, and leaves both counts at 0. -/
theorem spi_access_cleanup_always_gpio (w : World) :
    (w.spi0 = none →
      spi_access_cleanup w = gpio_access_cleanup w ∧
      (w.gpio = none → spi_access_cleanup w = .ret () w) ∧
      (∀ a, w.gpio = some a → w.gpio_clients = 1 → w.os.munmap_ok w.trace.length = true →
        spi_access_cleanup w = .ret () { w with
          gpio := none
          gpio_clients := 0
          trace := w.trace ++ [Ev.sys_munmap .gpioBlk] })) ∧
    (∀ a, w.spi0 = some a → (w.spi0_clients + (WORD - 1)) % WORD ≠ 0 →
      spi_access_cleanup w = gpio_access_cleanup
        { w with spi0_clients := (w.spi0_clients + (WORD - 1)) % WORD }) ∧
    (∀ a, w.spi0 = some a → (w.spi0_clients + (WORD - 1)) % WORD = 0 →
      w.os.munmap_ok w.trace.length = true →
      spi_access_cleanup w = gpio_access_cleanup
        { w with
          spi0 := none
          spi0_clients := 0
          trace := w.trace ++ [Ev.sys_munmap .spi0Blk] }) ∧
    (∀ a, w.spi0 = some a → (w.spi0_clients + (WORD - 1)) % WORD = 0 →
      w.os.munmap_ok w.trace.length = false →
      spi_access_cleanup w = .exit
        { w with
          spi0_clients := 0
          trace := w.trace ++ [Ev.sys_munmap .spi0Blk] }) ∧
    (∀ a b, w.spi0 = some a → w.spi0_clients = 1 → w.gpio = some b → w.gpio_clients = 1 →
      w.os.munmap_ok w.trace.length = true → w.os.munmap_ok (w.trace.length + 1) = true →
      spi_access_cleanup w = .ret () { w with
        gpio := none
        gpio_clients := 0
        spi0 := none
        spi0_clients := 0
        trace := w.trace ++ [Ev.sys_munmap .spi0Blk, Ev.sys_munmap .gpioBlk] }) := by
  refine ⟨?_, ?_, ?_, ?_, ?_⟩
  · intro hs
    have h := spi_access_cleanup_of_unmapped w hs
    refine ⟨h, ?_, ?_⟩
    · intro hg
      rw [h, gpio_access_cleanup_unmapped w hg]
    · intro a ha hc hmun
      rw [h, gpio_access_cleanup_last w a ha hc hmun]
  · intro a hs hc
    exact spi_access_cleanup_of_shared w a hs hc
  · intro a hs hc hmun
    exact spi_access_cleanup_of_last w a hs hc hmun
  · intro a hs hc hmun
    exact spi_access_cleanup_of_failed w a hs hc hmun
  · intro a b hs hsc hg hgc hmun1 hmun2
    have hc : (w.spi0_clients + (WORD - 1)) % WORD = 0 := by
      rw [hsc]; exact dec_one_mod_word
    rw [spi_access_cleanup_of_last w a hs hc hmun1]
    have hcl := gpio_access_cleanup_last
      { w with
        spi0 := none
        spi0_clients := 0
        trace := w.trace ++ [Ev.sys_munmap .spi0Blk] }
      b hg hgc (by simpa using hmun2)
    rw [hcl]
    simp

/-- Witness for the amended C19: `spi_access_cleanup` in `world0` (nothing
mapped), in `worldGpioOnly` (GPIO mapped for a client of its own), in
`worldMapped` (both blocks mapped for one client each), with two SPI clients
registered, and with a failing `munmap`. -/
theorem spi_access_cleanup_always_gpio_witness :
    spi_access_cleanup world0 = .ret () world0 ∧
    spi_access_cleanup worldGpioOnly = .ret () { worldGpioOnly with
      gpio := none
      gpio_clients := 0
      trace := worldGpioOnly.trace ++ [Ev.sys_munmap .gpioBlk] } ∧
    spi_access_cleanup worldMapped = .ret () { worldMapped with
      gpio := none
      gpio_clients := 0
      spi0 := none
      spi0_clients := 0
      trace := worldMapped.trace ++ [Ev.sys_munmap .spi0Blk, Ev.sys_munmap .gpioBlk] } ∧
    spi_access_cleanup { worldMapped with spi0_clients := 2 } =
      gpio_access_cleanup { worldMapped with spi0_clients := (2 + (WORD - 1)) % WORD } ∧
    spi_access_cleanup
        { worldMapped with os := { okOS with munmap_ok := fun _ => false } } =
      .exit { worldMapped with
        os := { okOS with munmap_ok := fun _ => false }
        spi0_clients := 0
        trace := worldMapped.trace ++ [Ev.sys_munmap .spi0Blk] } :=
  ⟨((spi_access_cleanup_always_gpio world0).1 rfl).2.1 rfl,
   ((spi_access_cleanup_always_gpio worldGpioOnly).1 rfl).2.2 0x76f00000 rfl rfl rfl,
   (spi_access_cleanup_always_gpio worldMapped).2.2.2.2 0x76f01000 0x76f00000 rfl rfl rfl rfl
     rfl rfl,
   (spi_access_cleanup_always_gpio { worldMapped with spi0_clients := 2 }).2.1 0x76f01000 rfl
     (by decide),
   (spi_access_cleanup_always_gpio
     { worldMapped with os := { okOS with munmap_ok := fun _ => false } }).2.2.2.1 0x76f01000
     rfl (by decide) rfl⟩

/-- Counterexample to C19: in `worldGpioOnly` the SPI0 block is not mapped
(SPI count 0) and the GPIO block is mapped with count 1; `spi_access_cleanup`
returns with the GPIO block unmapped and the GPIO count at 0. -/
theorem spi_access_cleanup_counterexample :
    worldGpioOnly.spi0 = none ∧ worldGpioOnly.spi0_clients = 0 ∧
    worldGpioOnly.gpio = some 0x76f00000 ∧ worldGpioOnly.gpio_clients = 1 ∧
    (spi_access_cleanup worldGpioOnly).world?.map
      (fun w => (w.gpio, w.gpio_clients, mapEvents w.trace)) =
      some (none, 0, [Ev.sys_munmap .gpioBlk]) := by
  refine ⟨rfl, rfl, rfl, rfl, ?_⟩
  rw [spi_access_cleanup_of_unmapped worldGpioOnly rfl,
    gpio_access_cleanup_last worldGpioOnly 0x76f00000 rfl rfl rfl]
  rfl

/-! ## Accesses stay inside the mapped blocks -/

theorem inBlock_nil (b : Blk) (bound : Nat) : InBlock b bound [] := by
  intro e he
  simp at he

theorem inBlock_append (b : Blk) (bound : Nat) (t1 t2 : List Ev)
    (h1 : InBlock b bound t1) (h2 : InBlock b bound t2) : InBlock b bound (t1 ++ t2) := by
  intro e he
  rcases List.mem_append.mp he with h | h
  · exact h1 e h
  · exact h2 e h

theorem inBlock_cons (b : Blk) (bound : Nat) (e : Ev) (t : List Ev)
    (he : ∀ off, e.offset? b = some off → off < bound) (ht : InBlock b bound t) :
    InBlock b bound (e :: t) := by
  intro x hx
  rcases List.mem_cons.mp hx with h | h
  · rw [h]; exact he
  · exact ht x h

theorem inBlock_rd (b b1 : Blk) (bound o v : Nat) (h : o < bound) :
    ∀ off, (Ev.rd b1 o v).offset? b = some off → off < bound := by
  intro off hoff
  simp only [Ev.offset?] at hoff
  split at hoff
  · cases hoff; exact h
  · cases hoff

theorem inBlock_wr (b b1 : Blk) (bound o v : Nat) (h : o < bound) :
    ∀ off, (Ev.wr b1 o v).offset? b = some off → off < bound := by
  intro off hoff
  simp only [Ev.offset?] at hoff
  split at hoff
  · cases hoff; exact h
  · cases hoff

theorem gpio_len_words : GPIO_LEN / 4 = 45 := by decide

theorem spi0_len_words : SPI0_LEN / 4 = 6 := by decide

theorem inBlock_selTrace (b : Blk) (p : Nat) (m : gpio_sel_mode_t) (mem : Nat → Nat)
    (hp : p ≤ 53) : InBlock b 45 (selTrace p m mem) := by
  have h : p / 10 < 45 := by omega
  unfold selTrace
  refine inBlock_cons _ _ _ _ (inBlock_rd _ _ _ _ _ h)
    (inBlock_cons _ _ _ _ (inBlock_wr _ _ _ _ _ h) ?_)
  split
  · exact inBlock_nil _ _
  · exact inBlock_cons _ _ _ _ (inBlock_rd _ _ _ _ _ h)
      (inBlock_cons _ _ _ _ (inBlock_wr _ _ _ _ _ h) (inBlock_nil _ _))

theorem inBlock_statusReads (b : Blk) (s : Nat → Nat) (k : Nat) :
    InBlock b 6 (statusReads s k) := by
  induction k generalizing s with
  | zero =>
    rw [statusReads_zero]
    exact inBlock_cons _ _ _ _ (inBlock_rd _ _ _ _ _ (by decide)) (inBlock_nil _ _)
  | succ k ih =>
    rw [statusReads_succ]
    exact inBlock_cons _ _ _ _ (inBlock_rd _ _ _ _ _ (by decide)) (ih _)

theorem inBlock_xferTrace (b : Blk) (cs b1 b2 : Nat) (status fifo : Nat → Nat)
    (k1 k2 k3 : Nat) : InBlock b 6 (xferTrace cs b1 b2 status fifo k1 k2 k3) := by
  unfold xferTrace
  refine inBlock_append _ _ _ _ ?_ (inBlock_append _ _ _ _ (inBlock_statusReads _ _ _)
    (inBlock_append _ _ _ _ ?_ (inBlock_append _ _ _ _ (inBlock_statusReads _ _ _)
    (inBlock_append _ _ _ _ ?_ (inBlock_append _ _ _ _ (inBlock_statusReads _ _ _) ?_)))))
  · exact inBlock_cons _ _ _ _ (inBlock_wr _ _ _ _ _ (by decide))
      (inBlock_cons _ _ _ _ (inBlock_wr _ _ _ _ _ (by decide)) (inBlock_nil _ _))
  · exact inBlock_cons _ _ _ _ (inBlock_rd _ _ _ _ _ (by decide))
      (inBlock_cons _ _ _ _ (inBlock_wr _ _ _ _ _ (by decide)) (inBlock_nil _ _))
  · exact inBlock_cons _ _ _ _ (inBlock_rd _ _ _ _ _ (by decide)) (inBlock_nil _ _)
  · exact inBlock_cons _ _ _ _ (inBlock_wr _ _ _ _ _ (by decide)) (inBlock_nil _ _)

/-- On a mapped block `write_dac` either has not returned within the rounds
given or its three waits have ended within them. -/
theorem write_dac_cases (fuel : Nat) (c v : Int) (w : World) (a : Nat)
    (ha : w.spi0 = some a) :
    write_dac fuel c v w = .hang ∨
      ∃ k1 k2 k3, Waits w.spi0_status k1 k2 k3 ∧ k1 < fuel ∧ k2 < fuel ∧ k3 < fuel := by
  obtain ⟨g, gc, sp, sc, gm, sm, st, ff, os, tr⟩ := w
  simp only at ha
  subst ha
  simp only [write_dac, bind_apply, Prog.bind, short_wait_apply, spi0_wr_mk]
  rcases poll_cases SPI0_CS_RXFIFODATA st fuel with hc1 | ⟨k1, hk1, hw1⟩
  · left
    rw [poll_hang_mk _ fuel _ _ _ _ _ _ _ _ _ _ hc1]
  · rw [poll_mk _ k1 fuel _ _ _ _ _ _ _ _ _ _ hw1 hk1]
    simp only [spi0_rd_fifo_mk, spi0_wr_mk]
    rcases poll_cases SPI0_CS_RXFIFODATA (fun n => st (n + (k1 + 1))) fuel with
      hc2 | ⟨k2, hk2, hw2⟩
    · left
      rw [poll_hang_mk _ fuel _ _ _ _ _ _ _ _ _ _ hc2]
    · rw [poll_mk _ k2 fuel _ _ _ _ _ _ _ _ _ _ hw2 hk2]
      simp only [spi0_rd_fifo_mk, spi0_wr_mk]
      rcases poll_cases SPI0_CS_DONE (fun n => st (n + (k2 + 1) + (k1 + 1))) fuel with
        hc3 | ⟨k3, hk3, hw3⟩
      · left
        rw [poll_hang_mk _ fuel _ _ _ _ _ _ _ _ _ _ hc3]
      · exact Or.inr ⟨k1, k2, k3, ⟨hw1, hw2, hw3⟩, hk1, hk2, hk3⟩

/-- On a mapped block `read_adc` either has not returned within the rounds
given or its three waits have ended within them. -/
theorem read_adc_cases (fuel : Nat) (c : Int) (w : World) (a : Nat)
    (ha : w.spi0 = some a) :
    read_adc fuel c w = .hang ∨
      ∃ k1 k2 k3, Waits w.spi0_status k1 k2 k3 ∧ k1 < fuel ∧ k2 < fuel ∧ k3 < fuel := by
  obtain ⟨g, gc, sp, sc, gm, sm, st, ff, os, tr⟩ := w
  simp only at ha
  subst ha
  simp only [read_adc, bind_apply, Prog.bind, short_wait_apply, spi0_wr_mk]
  rcases poll_cases SPI0_CS_RXFIFODATA st fuel with hc1 | ⟨k1, hk1, hw1⟩
  · left
    rw [poll_hang_mk _ fuel _ _ _ _ _ _ _ _ _ _ hc1]
  · rw [poll_mk _ k1 fuel _ _ _ _ _ _ _ _ _ _ hw1 hk1]
    simp only [spi0_rd_fifo_mk, spi0_wr_mk]
    rcases poll_cases SPI0_CS_RXFIFODATA (fun n => st (n + (k1 + 1))) fuel with
      hc2 | ⟨k2, hk2, hw2⟩
    · left
      rw [poll_hang_mk _ fuel _ _ _ _ _ _ _ _ _ _ hc2]
    · rw [poll_mk _ k2 fuel _ _ _ _ _ _ _ _ _ _ hw2 hk2]
      simp only [spi0_rd_fifo_mk, spi0_wr_mk]
      rcases poll_cases SPI0_CS_DONE (fun n => st (n + (k2 + 1) + (k1 + 1))) fuel with
        hc3 | ⟨k3, hk3, hw3⟩
      · left
        rw [poll_hang_mk _ fuel _ _ _ _ _ _ _ _ _ _ hc3]
      · exact Or.inr ⟨k1, k2, k3, ⟨hw1, hw2, hw3⟩, hk1, hk2, hk3⟩

theorem gpio_function_sel_inBlock (p : Nat) (m : gpio_sel_mode_t) (w : World) (hp : p ≤ 53) :
    ∃ w1 t, gpio_function_sel p m w = .ret () w1 ∧ w1.trace = w.trace ++ t ∧
      InBlock .gpioBlk 45 t := by
  by_cases hg : w.gpio = none
  · refine ⟨w, [], ?_, by simp, inBlock_nil _ _⟩
    simp [gpio_function_sel, hg]
  · exact ⟨_, _, gpio_function_sel_mapped p m w hp hg, rfl,
      inBlock_selTrace .gpioBlk p m w.gpio_mem hp⟩

theorem gpio_pin_write_inBlock (p : Nat) (L : gpio_pin_val_t) (w : World) (hp : p ≤ 53) :
    ∃ w1 t, gpio_pin_write p L w = .ret () w1 ∧ w1.trace = w.trace ++ t ∧
      InBlock .gpioBlk 45 t := by
  by_cases hg : w.gpio = none
  · refine ⟨w, [], ?_, by simp, inBlock_nil _ _⟩
    simp [gpio_pin_write, hg]
  · refine ⟨_, _, gpio_pin_write_mapped p L w hp hg, rfl, ?_⟩
    refine inBlock_cons _ _ _ _ (inBlock_wr _ _ _ _ _ ?_) (inBlock_nil _ _)
    split <;> omega

theorem gpio_pin_read_inBlock (p : Nat) (val : Option gpio_pin_val_t) (w : World)
    (hp : p ≤ 53) :
    ∃ w1 t r, gpio_pin_read p val w = .ret r w1 ∧ w1.trace = w.trace ++ t ∧
      InBlock .gpioBlk 45 t := by
  by_cases hg : w.gpio = none
  · refine ⟨w, [], val, ?_, by simp, inBlock_nil _ _⟩
    simp [gpio_pin_read, hg]
  · cases val with
    | none =>
      refine ⟨w, [], none, ?_, by simp, inBlock_nil _ _⟩
      simp [gpio_pin_read]
    | some c =>
      refine ⟨_, _, _, gpio_pin_read_mapped p c w hp hg, rfl, ?_⟩
      exact inBlock_cons _ _ _ _ (inBlock_rd _ _ _ _ _ (by omega)) (inBlock_nil _ _)

theorem gpio_pin_pullup_inBlock (p : Nat) (v : gpio_pud_val_t) (w : World) (hp : p ≤ 53) :
    ∃ w1 t, gpio_pin_pullup p v w = .ret () w1 ∧ w1.trace = w.trace ++ t ∧
      InBlock .gpioBlk 45 t := by
  by_cases hg : w.gpio = none
  · refine ⟨w, [], ?_, by simp, inBlock_nil _ _⟩
    simp [gpio_pin_pullup, hg]
  · refine ⟨_, _, gpio_pin_pullup_mapped p v w hp hg, rfl, ?_⟩
    have h1 : GPIO_PUD (p / 32) < 45 := by unfold GPIO_PUD; omega
    have h2 : GPIO_PUDCLK (p / 32) < 45 := by unfold GPIO_PUDCLK; omega
    exact inBlock_cons _ _ _ _ (inBlock_wr _ _ _ _ _ h1)
      (inBlock_cons _ _ _ _ (inBlock_wr _ _ _ _ _ h2)
      (inBlock_cons _ _ _ _ (inBlock_wr _ _ _ _ _ h1)
      (inBlock_cons _ _ _ _ (inBlock_wr _ _ _ _ _ h2) (inBlock_nil _ _))))

theorem setup_spi0_inBlock (d : Nat) (w w1 : World)
    (h : (setup_spi0 d w).last? = some w1) :
    ∃ t, w1.trace = w.trace ++ t ∧ InBlock .spi0Blk 6 t := by
  obtain ⟨g, gc, sp, sc, gm, sm, st, ff, os, tr⟩ := w
  cases sp with
  | none =>
    simp [setup_spi0, bind_apply, Prog.bind, spi0_wr, Res.last?] at h
    subst h
    exact ⟨[], by simp, inBlock_nil _ _⟩
  | some a =>
    rw [setup_spi0_mk] at h
    simp only [Res.last?, Option.some.injEq] at h
    subst h
    exact ⟨_, rfl, inBlock_cons _ _ _ _ (inBlock_wr _ _ _ _ _ (by decide))
      (inBlock_cons _ _ _ _ (inBlock_wr _ _ _ _ _ (by decide)) (inBlock_nil _ _))⟩

theorem write_dac_inBlock (fuel : Nat) (c v : Int) (w w1 : World)
    (h : (write_dac fuel c v w).last? = some w1) :
    ∃ t, w1.trace = w.trace ++ t ∧ InBlock .spi0Blk 6 t := by
  cases hs : w.spi0 with
  | none =>
    rw [(spi_calls_unmapped_fault fuel c v w hs).1] at h
    simp only [Res.last?, Option.some.injEq] at h
    subst h
    exact ⟨[], by simp, inBlock_nil _ _⟩
  | some a =>
    rcases write_dac_cases fuel c v w a hs with hh | ⟨k1, k2, k3, hw, h1, h2, h3⟩
    · rw [hh] at h
      simp [Res.last?] at h
    · rw [write_dac_returns fuel c v w a k1 k2 k3 hs hw h1 h2 h3] at h
      simp only [Res.last?, Option.some.injEq] at h
      subst h
      exact ⟨_, rfl, inBlock_xferTrace _ _ _ _ _ _ _ _ _⟩

theorem read_adc_inBlock (fuel : Nat) (c : Int) (w w1 : World)
    (h : (read_adc fuel c w).last? = some w1) :
    ∃ t, w1.trace = w.trace ++ t ∧ InBlock .spi0Blk 6 t := by
  cases hs : w.spi0 with
  | none =>
    rw [(spi_calls_unmapped_fault fuel c 0 w hs).2] at h
    simp only [Res.last?, Option.some.injEq] at h
    subst h
    exact ⟨[], by simp, inBlock_nil _ _⟩
  | some a =>
    rcases read_adc_cases fuel c w a hs with hh | ⟨k1, k2, k3, hw, h1, h2, h3⟩
    · rw [hh] at h
      simp [Res.last?] at h
    · rw [read_adc_returns fuel c w a k1 k2 k3 hs hw h1 h2 h3] at h
      simp only [Res.last?, Option.some.injEq] at h
      subst h
      exact ⟨_, rfl, inBlock_xferTrace _ _ _ _ _ _ _ _ _⟩

/-- C20: every register access stays inside its mapped block. For every pin
`p ≤ 53` and every state, each of `gpio_function_sel`, `gpio_pin_write`,
`gpio_pin_read` and `gpio_pin_pullup` returns, and every word offset of the
GPIO block it reads or writes is below `GPIO_LEN / 4 = 45`. Whenever
`setup_spi0`, `write_dac` or `read_adc` ends, every word offset of the SPI0
block it has read or written is below `SPI0_LEN / 4 = 6`, and the status reads
of a wait, however many, are below that bound too. -/
theorem accesses_within_blocks (p : Nat) (m : gpio_sel_mode_t) (L : gpio_pin_val_t)
    (v : gpio_pud_val_t) (val : Option gpio_pin_val_t) (d fuel : Nat) (chan value : Int)
    (w : World) (hp : p ≤ 53) :
    (GPIO_LEN / 4 = 45 ∧ SPI0_LEN / 4 = 6) ∧
    (∃ w1 t, gpio_function_sel p m w = .ret () w1 ∧ w1.trace = w.trace ++ t ∧
      InBlock .gpioBlk (GPIO_LEN / 4) t) ∧
    (∃ w1 t, gpio_pin_write p L w = .ret () w1 ∧ w1.trace = w.trace ++ t ∧
      InBlock .gpioBlk (GPIO_LEN / 4) t) ∧
    (∃ w1 t r, gpio_pin_read p val w = .ret r w1 ∧ w1.trace = w.trace ++ t ∧
      InBlock .gpioBlk (GPIO_LEN / 4) t) ∧
    (∃ w1 t, gpio_pin_pullup p v w = .ret () w1 ∧ w1.trace = w.trace ++ t ∧
      InBlock .gpioBlk (GPIO_LEN / 4) t) ∧
    (∀ w1, (setup_spi0 d w).last? = some w1 →
      ∃ t, w1.trace = w.trace ++ t ∧ InBlock .spi0Blk (SPI0_LEN / 4) t) ∧
    (∀ w1, (write_dac fuel chan value w).last? = some w1 →
      ∃ t, w1.trace = w.trace ++ t ∧ InBlock .spi0Blk (SPI0_LEN / 4) t) ∧
    (∀ w1, (read_adc fuel chan w).last? = some w1 →
      ∃ t, w1.trace = w.trace ++ t ∧ InBlock .spi0Blk (SPI0_LEN / 4) t) ∧
    (∀ s k, InBlock .spi0Blk (SPI0_LEN / 4) (statusReads s k)) := by
  rw [gpio_len_words, spi0_len_words]
  exact ⟨⟨rfl, rfl⟩, gpio_function_sel_inBlock p m w hp, gpio_pin_write_inBlock p L w hp,
    gpio_pin_read_inBlock p val w hp, gpio_pin_pullup_inBlock p v w hp,
    fun w1 h => setup_spi0_inBlock d w w1 h, fun w1 h => write_dac_inBlock fuel chan value w w1 h,
    fun w1 h => read_adc_inBlock fuel chan w w1 h, fun s k => inBlock_statusReads _ s k⟩

/-- Witness for C20: pin 53, the highest pin, in `worldMapped`. -/
theorem accesses_within_blocks_witness :
    (GPIO_LEN / 4 = 45 ∧ SPI0_LEN / 4 = 6) ∧
    (∃ w1 t, gpio_function_sel 53 .GPIO_ALT5 worldMapped = .ret () w1 ∧
      w1.trace = worldMapped.trace ++ t ∧ InBlock .gpioBlk (GPIO_LEN / 4) t) ∧
    (∃ w1 t, gpio_pin_write 53 .GPIO_HIGH worldMapped = .ret () w1 ∧
      w1.trace = worldMapped.trace ++ t ∧ InBlock .gpioBlk (GPIO_LEN / 4) t) ∧
    (∃ w1 t r, gpio_pin_read 53 (some .GPIO_LOW) worldMapped = .ret r w1 ∧
      w1.trace = worldMapped.trace ++ t ∧ InBlock .gpioBlk (GPIO_LEN / 4) t) ∧
    (∃ w1 t, gpio_pin_pullup 53 .GPIO_PUD_UP worldMapped = .ret () w1 ∧
      w1.trace = worldMapped.trace ++ t ∧ InBlock .gpioBlk (GPIO_LEN / 4) t) ∧
    (∀ w1, (setup_spi0 256 worldMapped).last? = some w1 →
      ∃ t, w1.trace = worldMapped.trace ++ t ∧ InBlock .spi0Blk (SPI0_LEN / 4) t) ∧
    (∀ w1, (write_dac 1 1 0x80 worldMapped).last? = some w1 →
      ∃ t, w1.trace = worldMapped.trace ++ t ∧ InBlock .spi0Blk (SPI0_LEN / 4) t) ∧
    (∀ w1, (read_adc 1 1 worldMapped).last? = some w1 →
      ∃ t, w1.trace = worldMapped.trace ++ t ∧ InBlock .spi0Blk (SPI0_LEN / 4) t) ∧
    (∀ s k, InBlock .spi0Blk (SPI0_LEN / 4) (statusReads s k)) :=
  accesses_within_blocks 53 .GPIO_ALT5 .GPIO_HIGH .GPIO_PUD_UP (some .GPIO_LOW) 256 1 1 0x80
    worldMapped (by decide)

/-! ## Well-formedness of the DAC framing -/

set_option maxRecDepth 100000 in
/-- The framing facts for an 8-bit value `x`, for channel 0 and for channel 1. -/
theorem dac_frame_bits : ∀ x, x < 256 →
    (((0x30 ||| (0 <<< 7) ||| (x >>> 4)) >>> 7) &&& 1 = 0 ∧
     ((0x30 ||| (1 <<< 7) ||| (x >>> 4)) >>> 7) &&& 1 = 1) ∧
    (((0x30 ||| (0 <<< 7) ||| (x >>> 4)) >>> 4) &&& 7 = 3 ∧
     ((0x30 ||| (1 <<< 7) ||| (x >>> 4)) >>> 4) &&& 7 = 3) ∧
    ((x <<< 4) &&& 0xF0) &&& 0x0F = 0 ∧
    ((((0x30 ||| (0 <<< 7) ||| (x >>> 4)) &&& 0x0F) <<< 4) ||| (((x <<< 4) &&& 0xF0) >>> 4) = x ∧
     (((0x30 ||| (1 <<< 7) ||| (x >>> 4)) &&& 0x0F) <<< 4) ||| (((x <<< 4) &&& 0xF0) >>> 4) = x) := by
  decide

theorem emod_256_toNat_lt (v : Int) : (v % 256).toNat < 256 := by
  omega

/-- C21: for every channel `c` in {0, 1} and every integer `v`, negative or
above 255 included, the two bytes `v1`, `v2` that `write_dac` builds satisfy:
bit 7 of `v1` is `c`, bits 6..4 of `v1` are `0b011`, the low nibble of `v2` is
0, and `((v1 & 0x0F) << 4) | (v2 >> 4)` is `v & 0xFF`, that is `v mod 256`;
and these two bytes are what a run of `write_dac` whose waits end writes to
the FIFO register. -/
theorem dac_framing_lossless (c v : Int) (hc : c = 0 ∨ c = 1) :
    ((dacByte1 c v >>> 7) &&& 1 = c.toNat ∧
     (dacByte1 c v >>> 4) &&& 7 = 0b011 ∧
     dacByte2 v &&& 0x0F = 0 ∧
     ((dacByte1 c v &&& 0x0F) <<< 4) ||| (dacByte2 v >>> 4) = toU32 v &&& 0xFF ∧
     toU32 v &&& 0xFF = (v % 256).toNat) ∧
    (∀ (w : World) (k1 k2 k3 fuel : Nat), w.spi0 ≠ none → Waits w.spi0_status k1 k2 k3 →
      k1 < fuel → k2 < fuel → k3 < fuel →
      ∃ w1 t, write_dac fuel c v w = .ret () w1 ∧ w1.trace = w.trace ++ t ∧
        writesTo .spi0Blk SPI0_FIFO t = [dacByte1 c v, dacByte2 v]) := by
  have hbits := dac_frame_bits (v % 256).toNat (emod_256_toNat_lt v)
  obtain ⟨⟨b0, b1⟩, ⟨f0, f1⟩, hlow, r0, r1⟩ := hbits
  constructor
  · rw [dacByte1_eq c v hc, dacByte2_eq, toU32_and_ff]
    rcases hc with rfl | rfl
    · exact ⟨b0, f0, hlow, r0, rfl⟩
    · exact ⟨b1, f1, hlow, r1, rfl⟩
  · intro w k1 k2 k3 fuel hmap hw h1 h2 h3
    obtain ⟨a, ha⟩ := mapped_iff.mp hmap
    exact ⟨_, _, write_dac_returns fuel c v w a k1 k2 k3 ha hw h1 h2 h3, rfl,
      fifo_writes_xferTrace _ _ _ _ _ _ _ _⟩

/-- Witness for C21: channel 1 and the negative value `-1`, whose low byte is
`0xFF`: the bytes are `0xBF` and `0xF0`, written in `worldMapped`. -/
theorem dac_framing_lossless_witness :
    ((dacByte1 1 (-1) >>> 7) &&& 1 = 1 ∧
     (dacByte1 1 (-1) >>> 4) &&& 7 = 0b011 ∧
     dacByte2 (-1) &&& 0x0F = 0 ∧
     ((dacByte1 1 (-1) &&& 0x0F) <<< 4) ||| (dacByte2 (-1) >>> 4) = toU32 (-1) &&& 0xFF ∧
     toU32 (-1) &&& 0xFF = 0xFF) ∧
    (∃ w1 t, write_dac 1 1 (-1) worldMapped = .ret () w1 ∧
      w1.trace = worldMapped.trace ++ t ∧
      writesTo .spi0Blk SPI0_FIFO t = [0xBF, 0xF0]) :=
  ⟨(dac_framing_lossless 1 (-1) (Or.inr rfl)).1,
   (dac_framing_lossless 1 (-1) (Or.inr rfl)).2 worldMapped 0 0 0 1 (by decide)
     waits_worldMapped (by decide) (by decide) (by decide)⟩

end GbAdc
